import Mathlib

/-!
Shallow embedding of the compositing engine of `goodie_bot/cli.py` (the
thank-you-card renderer), together with proofs about its documented
behaviour.  Pure helpers (`fit_image`, `sanitize_filename`, `hex_to_rgb`,
the mask pipeline of `paste_photo`) are translated directly; the job
pipeline `process_job` is translated into a pure function that returns the
computed output path together with an explicit trace of its compositing
events, log lines, and file writes.  Python floats are modelled as exact
rationals, Python `int` values as `Int`, and 8-bit image channels as `Nat`
values in `[0, 255]`.
-/

set_option autoImplicit false

namespace GoodieBot

/-! ### Models of the Python builtins used by `cli.py` -/

/-- Model of Python `str.strip()` on a character list: leading and trailing
whitespace is removed (ASCII whitespace; Python also strips some Unicode
whitespace, which no template in this code base uses). -/
def pyStrip (l : List Char) : List Char :=
  ((l.dropWhile Char.isWhitespace).reverse.dropWhile Char.isWhitespace).reverse

/-- Value of a single hexadecimal digit, as accepted by Python `int(_, 16)`. -/
def hexDigitVal (c : Char) : Option Nat :=
  if '0' ≤ c ∧ c ≤ '9' then some (c.toNat - '0'.toNat)
  else if 'a' ≤ c ∧ c ≤ 'f' then some (c.toNat - 'a'.toNat + 10)
  else if 'A' ≤ c ∧ c ≤ 'F' then some (c.toNat - 'A'.toNat + 10)
  else none

/-- Value of a non-empty all-hex-digit string; `none` when empty or when any
character is not a hexadecimal digit. -/
def hexDigitsVal (ds : List Char) : Option Nat :=
  if ds = [] then none
  else
    ds.foldl
      (fun acc c =>
        match acc, hexDigitVal c with
        | some a, some d => some (16 * a + d)
        | _, _ => none)
      (some 0)

/-- Errors raised by the Python code under consideration. -/
inductive PyErr where
  | valueError (msg : String)
  | keyError (key : String)
  deriving DecidableEq, Repr

/-- Model of Python `int(s, 16)`: surrounding whitespace is ignored, an
optional sign is accepted, and the remaining characters must be a non-empty
run of hexadecimal digits, else `ValueError` is raised.  (Python's
single-underscore digit grouping is not modelled; no caller in `cli.py` can
produce a legally grouped literal.) -/
def pyIntHex (l : List Char) : Except PyErr Int :=
  let t := pyStrip l
  let signed : Bool × List Char :=
    match t with
    | '+' :: r => (false, r)
    | '-' :: r => (true, r)
    | r => (false, r)
  match hexDigitsVal signed.2 with
  | some v => .ok (if signed.1 then -(v : Int) else (v : Int))
  | none => .error (.valueError "invalid literal for int() with base 16")

/-- Model of Python `round()` on an exact rational: round half to even. -/
def pyRound (q : ℚ) : Int :=
  let f := ⌊q⌋
  let r := q - f
  if r < 1/2 then f
  else if 1/2 < r then f + 1
  else if f % 2 = 0 then f else f + 1

/-- Model of Python `int()` on a rational value: truncation toward zero. -/
def pyTruncInt (q : ℚ) : Int :=
  if q < 0 then ⌈q⌉ else ⌊q⌋

/-! ### `sanitize_filename` (cli.py lines 439-441) -/

/-- Characters kept by `sanitize_filename`: `ch.isalnum() or ch in ("_", "-", " ")`.
Python's `isalnum` is modelled on ASCII alphanumerics; no template or job in
this code base uses non-ASCII names. -/
def pyKeep (c : Char) : Bool :=
  c.isAlphanum || c == '_' || c == '-' || c == ' '

/-- Helper of `pyWords`: `acc` holds the reversed current word. -/
def pyWordsAux : List Char → List Char → List (List Char)
  | [], acc => if acc = [] then [] else [acc.reverse]
  | c :: rest, acc =>
    if c = ' ' then
      if acc = [] then pyWordsAux rest [] else acc.reverse :: pyWordsAux rest []
    else pyWordsAux rest (c :: acc)

/-- Model of Python `str.split()` (no separator) on a list whose only
whitespace characters are plain spaces: the maximal non-space runs, in order.
Leading and trailing whitespace is ignored by `split()`, which also absorbs
the `strip()` the source applies first. -/
def pyWords (l : List Char) : List (List Char) :=
  pyWordsAux l []

/-- Model of Python `sep.join(words)`. -/
def pyJoin (sep : List Char) : List (List Char) → List Char
  | [] => []
  | [w] => w
  | w :: ws => w ++ sep ++ pyJoin sep ws

/-- Translation of `sanitize_filename`: keep alphanumerics, underscore,
hyphen and space, then strip/split on whitespace and join with underscores. -/
def sanitize_filename (name : String) : String :=
  let cleaned := name.data.filter pyKeep
  String.mk (pyJoin ['_'] (pyWords cleaned))

/-! ### `hex_to_rgb` (cli.py lines 444-456) -/

/-- Argument of `hex_to_rgb`: the Python function receives an arbitrary
object and first checks `isinstance(color, str)`; every non-string is
collapsed into `other`. -/
inductive PyObj where
  | str (s : String)
  | other
  deriving DecidableEq, Repr

/-- Translation of `hex_to_rgb`: non-strings, strings not starting with `#`
after stripping, and `#`-strings whose stripped length is neither 4 nor 7
yield the default `(245, 246, 250)`; otherwise the digit pairs are parsed
with `int(_, 16)`, whose `ValueError` (e.g. on `"#ggg"`) is not caught. -/
def hex_to_rgb (color : PyObj) : Except PyErr (Int × Int × Int) :=
  match color with
  | .other => .ok (245, 246, 250)
  | .str s =>
    match pyStrip s.data with
    | '#' :: rest =>
      match rest with
      | [a, b, c] => do
        let r ← pyIntHex [a, a]
        let g ← pyIntHex [b, b]
        let bl ← pyIntHex [c, c]
        return (r, g, bl)
      | [a1, a2, b1, b2, c1, c2] => do
        let r ← pyIntHex [a1, a2]
        let g ← pyIntHex [b1, b2]
        let bl ← pyIntHex [c1, c2]
        return (r, g, bl)
      | _ => .ok (245, 246, 250)
    | _ => .ok (245, 246, 250)

/-! ### `fit_image` (cli.py lines 178-194) -/

/-- Geometry produced by `fit_image`: the dimensions passed to `resize`, the
crop box handed to `Image.crop`, and the dimensions of the cropped result
(PIL's `crop((l, t, r, b))` always returns an `(r - l) × (b - t)` image). -/
structure FitResult where
  new_width : Nat
  new_height : Nat
  left : Int
  top : Int
  crop_right : Int
  crop_bottom : Int
  out_width : Nat
  out_height : Nat
  deriving DecidableEq, Repr

/-- Translation of `fit_image` on the image geometry: Python float division
is modelled as exact rational division, and `int(...)` as truncation toward
zero (the operands here are positive, so truncation is the floor). -/
def fit_image (imgW imgH width height : Nat) : FitResult :=
  let img_ratio : ℚ := (imgW : ℚ) / (imgH : ℚ)
  let target_ratio : ℚ := (width : ℚ) / (height : ℚ)
  let dims : Nat × Nat :=
    if img_ratio > target_ratio then
      (((pyTruncInt ((height : ℚ) * img_ratio))).toNat, height)
    else
      (width, (pyTruncInt ((width : ℚ) / img_ratio)).toNat)
  let new_width := dims.1
  let new_height := dims.2
  let left : Int := ((new_width : Int) - (width : Int)) / 2
  let top : Int := ((new_height : Int) - (height : Int)) / 2
  { new_width := new_width
    new_height := new_height
    left := left
    top := top
    crop_right := left + (width : Int)
    crop_bottom := top + (height : Int)
    out_width := ((left + (width : Int)) - left).toNat
    out_height := ((top + (height : Int)) - top).toNat }

/-! ### The compositing-mask pipeline of `paste_photo` (cli.py lines 337-352) -/

/-- Single-channel (`L` mode) image: a pixel function together with its
dimensions.  Pixel values are 8-bit, i.e. meaningful values lie in
`[0, 255]`; only coordinates `x < width`, `y < height` are meaningful. -/
structure GrayImage where
  width : Nat
  height : Nat
  pix : Nat → Nat → Nat

/-- Clamping of a (possibly out-of-range) coordinate into `[0, n - 1]`,
modelling PIL's edge replication at image borders. -/
def clampCoord (i : Int) (n : Nat) : Nat :=
  (max 0 (min i ((n : Int) - 1))).toNat

/-- Offsets of the full 3 × 3 window around a pixel. -/
def window3 : List (Int × Int) :=
  [(-1, -1), (0, -1), (1, -1), (-1, 0), (0, 0), (1, 0), (-1, 1), (0, 1), (1, 1)]

/-- Translation of `photo_alpha.filter(ImageFilter.MinFilter(3))`: each pixel
becomes the minimum of its 3 × 3 neighbourhood, with edge pixels replicated
at the borders (PIL expands the image by one edge-replicated pixel before
rank filtering).  The fold starts from the window's own centre pixel, so the
result is the minimum over the whole window. -/
def minFilter3 (img : GrayImage) : GrayImage :=
  { img with
    pix := fun x y =>
      (window3.map fun d =>
          img.pix (clampCoord ((x : Int) + d.1) img.width)
                  (clampCoord ((y : Int) + d.2) img.height)).foldr
        min
        (img.pix (clampCoord (x : Int) img.width) (clampCoord (y : Int) img.height)) }

/-- Translation of `ImageChops.multiply`: pixelwise `a * b / 255` with
integer floor division. -/
def multiplyMask (a b : GrayImage) : GrayImage :=
  { a with pix := fun x y => a.pix x y * b.pix x y / 255 }

/-- Weights of a 1-dimensional binomial approximation of a small Gaussian. -/
def binWeight (d : Int) : Nat :=
  if d = 0 then 6
  else if d = -1 ∨ d = 1 then 4
  else if d = -2 ∨ d = 2 then 1
  else 0

/-- Offsets of the full 5 × 5 window around a pixel. -/
def window5 : List (Int × Int) :=
  (List.range 5).flatMap fun j => (List.range 5).map fun i => ((i : Int) - 2, (j : Int) - 2)

/-- Modelled from the spec: the final feathering step "soften the composite
mask with a small Gaussian blur" is `base_mask.filter(ImageFilter.GaussianBlur(radius=1.5))`,
whose implementation lives in PIL, not in this repository.  It is modelled
as a normalized positive convolution: a separable 5 × 5 binomial kernel
(weights `[1,4,6,4,1]` per axis, total 256) with edge replication. -/
def gaussianBlur5 (img : GrayImage) : GrayImage :=
  { img with
    pix := fun x y =>
      (window5.map fun d =>
          binWeight d.1 * binWeight d.2 *
            img.pix (clampCoord ((x : Int) + d.1) img.width)
                    (clampCoord ((y : Int) + d.2) img.height)).sum / 256 }

/-- Geometric model of `rounded_mask` (cli.py lines 197-201): the mask drawn
by `ImageDraw.rounded_rectangle((0, 0, width, height), radius, fill=255)` on
a black background; a pixel is filled (255) iff it lies in the rectangle
and, inside a corner square, within the corner's quarter disc. -/
def rounded_mask (width height : Nat) (radius : Nat) : GrayImage :=
  { width := width
    height := height
    pix := fun x y =>
      let dx : Int :=
        if (x : Int) < (radius : Int) then (radius : Int) - x
        else if (x : Int) > (width : Int) - 1 - radius then (x : Int) - ((width : Int) - 1 - radius)
        else 0
      let dy : Int :=
        if (y : Int) < (radius : Int) then (radius : Int) - y
        else if (y : Int) > (height : Int) - 1 - radius then (y : Int) - ((height : Int) - 1 - radius)
        else 0
      if x < width ∧ y < height ∧ dx ^ 2 + dy ^ 2 ≤ (radius : Int) ^ 2 then 255 else 0 }

/-- Scaled corner radius used by `paste_photo`:
`max(1, int(box.border_radius * scale))`. -/
def radiusScaled (border_radius : Int) (scale : ℚ) : Nat :=
  (max 1 (pyTruncInt ((border_radius : ℚ) * scale))).toNat

/-- Mask combination of `paste_photo` (cli.py lines 337-348), before the
optional feathering blur: start from the transparency channel `alpha` of the
fitted and scaled photo; when background removal with a matte colour applies,
replace it with the eroded (3 × 3 minimum-filtered) channel; when the box has
a positive corner radius, multiply with the rounded-corner mask. -/
def combined_mask (alpha : GrayImage) (remove_bg has_bg_color : Bool)
    (border_radius : Int) (scale : ℚ) : GrayImage :=
  let base_mask := alpha
  let base_mask := if remove_bg && has_bg_color then minFilter3 alpha else base_mask
  let base_mask :=
    if border_radius > 0 then
      multiplyMask base_mask (rounded_mask alpha.width alpha.height (radiusScaled border_radius scale))
    else base_mask
  base_mask

/-- Final compositing mask built by `paste_photo` (cli.py lines 337-352):
the combined mask, feathered with a Gaussian blur when background removal
was applied at all. -/
def paste_mask (alpha : GrayImage) (remove_bg has_bg_color : Bool)
    (border_radius : Int) (scale : ℚ) : GrayImage :=
  let base_mask := combined_mask alpha remove_bg has_bg_color border_radius scale
  if remove_bg then gaussianBlur5 base_mask else base_mask

/-! ### Data model: template configuration and job records (cli.py lines 19-53, 246-290) -/

def DEFAULT_BG_COLOR : String := "#f5f6fa"

def DEFAULT_TEXT_COLOR : String := "#1f2d3d"

def PHOTO_SCALE : ℚ := 13 / 10

/-- Parsed `Overlay` dataclass (cli.py lines 24-31). -/
structure Overlay where
  path : String
  x : Int
  y : Int
  width : Option Int := none
  height : Option Int := none
  placement : String := "after_photos"
  deriving DecidableEq, Repr

/-- Parsed `PhotoBox` dataclass (cli.py lines 34-40). -/
structure PhotoBox where
  x : Int
  y : Int
  width : Int
  height : Int
  border_radius : Int := 0
  deriving DecidableEq, Repr

/-- Parsed `TextBlock` dataclass (cli.py lines 43-52). -/
structure TextBlock where
  text : String
  x : Int
  y : Int
  font_path : Option String := none
  size : Int := 48
  color : String := DEFAULT_TEXT_COLOR
  align : String := "left"
  max_width : Option Int := none
  deriving DecidableEq, Repr

/-- Raw photo-box mapping from the YAML template; `x,y,width,height` are
required keys, `border_radius` is optional.  YAML scalars are modelled as
integers, so the `int(...)` conversions of `parse_photo_boxes` are
identities. -/
structure RawPhotoBox where
  x : Int
  y : Int
  width : Int
  height : Int
  border_radius : Option Int := none
  deriving DecidableEq, Repr

/-- Raw text-block mapping; an absent `size` key matters twice: the
font-scale pass of `process_job` tests `"size" in block`, and
`parse_text_blocks` falls back to 48. -/
structure RawTextBlock where
  text : String
  x : Int
  y : Int
  font_path : Option String := none
  size : Option Int := none
  color : Option String := none
  align : Option String := none
  max_width : Option Int := none
  deriving DecidableEq, Repr

/-- Raw overlay mapping; `placement` is optional. -/
structure RawOverlay where
  path : String
  x : Int
  y : Int
  width : Option Int := none
  height : Option Int := none
  placement : Option String := none
  deriving DecidableEq, Repr

/-- Raw canvas mapping; all keys are read with `.get` and a default. -/
structure CanvasCfg where
  width : Option Int := none
  height : Option Int := none
  background_color : Option String := none
  template_path : Option String := none
  deriving DecidableEq, Repr

/-- Loaded template configuration (after `load_template_config` filled in
the four top-level keys).  `text_blocks` is an insertion-ordered mapping. -/
structure TemplateCfg where
  canvas : CanvasCfg := {}
  photo_boxes : List RawPhotoBox := []
  text_blocks : List (String × RawTextBlock) := []
  overlays : List RawOverlay := []
  deriving DecidableEq, Repr

/-- Translation of `parse_photo_boxes` (cli.py lines 246-258). -/
def parse_photo_boxes (raw : List RawPhotoBox) : List PhotoBox :=
  raw.map fun b =>
    { x := b.x, y := b.y, width := b.width, height := b.height,
      border_radius := b.border_radius.getD 0 }

/-- Translation of `parse_text_blocks` (cli.py lines 261-274). -/
def parse_text_blocks (raw : List (String × RawTextBlock)) : List (String × TextBlock) :=
  raw.map fun kv =>
    (kv.1,
      { text := kv.2.text, x := kv.2.x, y := kv.2.y, font_path := kv.2.font_path,
        size := kv.2.size.getD 48, color := kv.2.color.getD DEFAULT_TEXT_COLOR,
        align := kv.2.align.getD "left", max_width := kv.2.max_width })

/-- Translation of `parse_overlays` (cli.py lines 277-290). -/
def parse_overlays (raw : List RawOverlay) : List Overlay :=
  raw.map fun ov =>
    { path := ov.path, x := ov.x, y := ov.y, width := ov.width, height := ov.height,
      placement := ov.placement.getD "after_photos" }

/-- The `photos` field of one job record. -/
inductive PhotosField where
  | absent
  | str (s : String)
  | list (l : List String)
  deriving DecidableEq, Repr

/-- One job record; every field is read with `job.get`. -/
structure Job where
  photos : PhotosField := .absent
  recipient_name : Option String := none
  giver_name : Option String := none
  message : Option String := none
  project_name : Option String := none
  output_name : Option String := none
  deriving DecidableEq, Repr

/-- File-system view used by the render: which paths exist on disk. -/
structure FS where
  present : String → Bool

/-- Photo-path resolution of `process_job` (cli.py lines 369-372):
`job.get("photos") or []` maps a missing field, an empty string and an
empty list all to `[]`; a non-empty string becomes a singleton list. -/
def resolvePhotos : PhotosField → List String
  | .absent => []
  | .str s => if s = "" then [] else [s]
  | .list l => l

/-! ### The job pipeline `process_job` (cli.py lines 359-436), as a trace-producing function -/

/-- One compositing action performed on the canvas, in execution order. -/
inductive Event where
  | overlay (ov : Overlay)
  | photo (idx : Nat) (path : String) (box : PhotoBox) (remove_bg : Bool) (scale : ℚ)
  | text (name : String) (rendered : String) (block : TextBlock)
  deriving DecidableEq, Repr

/-- Observable side effects of one `process_job` call: canvas compositing
events, `print`ed log lines and written files, each in execution order. -/
structure Effects where
  events : List Event
  logs : List String
  saved : List String
  deriving DecidableEq, Repr

instance {ε α : Type} [DecidableEq ε] [DecidableEq α] : DecidableEq (Except ε α) := fun x y =>
  match x, y with
  | .ok a, .ok b =>
    if h : a = b then .isTrue (by rw [h]) else .isFalse (by intro hc; cases hc; exact h rfl)
  | .error a, .error b =>
    if h : a = b then .isTrue (by rw [h]) else .isFalse (by intro hc; cases hc; exact h rfl)
  | .ok _, .error _ => .isFalse (by intro hc; cases hc)
  | .error _, .ok _ => .isFalse (by intro hc; cases hc)

/-- Result of the body of `process_job`, before the final save step. -/
structure BodyOut where
  result : Except PyErr String
  events : List Event
  logs : List String
  deriving DecidableEq, Repr

/-- Model of `pathlib.Path(p).suffix` for forward-slash paths: the final
component's extension from its last dot, when that dot is neither the
first nor the last character of the component. -/
def pySuffix (p : String) : String :=
  let name := (p.splitOn "/").getLastD ""
  let l := name.data
  match l.reverse.findIdx? (· = '.') with
  | some j =>
    let i := l.length - 1 - j
    if 0 < i ∧ i < l.length - 1 then String.mk (l.drop i) else ""
  | none => ""

/-- Eligibility test for background removal in the photo loop:
`photo_path.suffix.lower() in (".jpg", ".jpeg")` (cli.py line 416). -/
def isJpgSuffix (p : String) : Bool :=
  let s := String.mk ((pySuffix p).data.map Char.toLower)
  s == ".jpg" || s == ".jpeg"

/-- Scanner of Python `str.format` restricted to plain named replacement
fields (no conversions, format specs or indexing, which no template of this
program uses).  The first argument holds the reversed characters of the
replacement field currently being read, if any. -/
def pyFormatGo (subs : List (String × String)) :
    Option (List Char) → List Char → Except PyErr (List Char)
  | none, [] => .ok []
  | some _, [] => .error (.valueError "Single open brace encountered in format string")
  | some acc, c :: rest =>
    if c = '}' then
      match subs.lookup (String.mk acc.reverse) with
      | some v => (pyFormatGo subs none rest).map fun r => v.data ++ r
      | none => .error (.keyError (String.mk acc.reverse))
    else pyFormatGo subs (some (c :: acc)) rest
  | none, '{' :: '{' :: rest => (pyFormatGo subs none rest).map fun r => '{' :: r
  | none, '{' :: rest => pyFormatGo subs (some []) rest
  | none, '}' :: '}' :: rest => (pyFormatGo subs none rest).map fun r => '}' :: r
  | none, '}' :: _ => .error (.valueError "Single close brace encountered in format string")
  | none, c :: rest => (pyFormatGo subs none rest).map fun r => c :: r

/-- Model of `block.text.format(**substitutions)`. -/
def pyFormat (subs : List (String × String)) (s : String) : Except PyErr String :=
  (pyFormatGo subs none s.data).map String.mk

/-- The string drawn by `draw_text` (cli.py lines 227-243): the substituted
text, split on the literal two-character sequence backslash-n and re-joined
with real newlines. -/
def renderText (subs : List (String × String)) (b : TextBlock) : Except PyErr String := do
  let text_value ← pyFormat subs b.text
  return String.intercalate "\n" (text_value.splitOn "\\n")

def overlayNotFoundMsg (p : String) : String :=
  "Overlay not found: " ++ p

def photoNotFoundMsg (p : String) : String :=
  "Photo not found: " ++ p ++ ", skipping."

def templateImgNotFoundMsg (p : String) : String :=
  "Template image not found: " ++ p ++ ", using solid background."

def excessWarningMsg (n k : Nat) : String :=
  "Warning: " ++ toString n ++ " photos provided but only " ++ toString k ++
    " boxes. Extra photos ignored."

/-- One placement-filtered pass over the overlays (cli.py lines 394-396,
421-423 and 428-430, each paste through `paste_overlay`, lines 204-215): an
overlay whose file exists contributes a compositing event; a missing file
is logged and skipped. -/
def overlayPass (fs : FS) (ovs : List Overlay) (phase : String) : List Event × List String :=
  match ovs with
  | [] => ([], [])
  | ov :: rest =>
    let tail := overlayPass fs rest phase
    if ov.placement = phase then
      if fs.present ov.path then (.overlay ov :: tail.1, tail.2)
      else (tail.1, overlayNotFoundMsg ov.path :: tail.2)
    else tail

/-- The photo loop of `process_job` (cli.py lines 404-419): the first
`len(photo_boxes)` photos are paired positionally with the boxes; a missing
photo file is logged and its box skipped; otherwise `paste_photo` runs,
with background removal only for `.jpg`/`.jpeg` files when `remove_bg_jpg`
is set. -/
def photoLoop (fs : FS) (pairs : List (String × PhotoBox)) (idx : Nat)
    (remove_bg_jpg : Bool) (photo_scale : ℚ) : List Event × List String :=
  match pairs with
  | [] => ([], [])
  | (p, box) :: rest =>
    let tail := photoLoop fs rest (idx + 1) remove_bg_jpg photo_scale
    if fs.present p then
      (.photo idx p box (remove_bg_jpg && isJpgSuffix p) photo_scale :: tail.1, tail.2)
    else (tail.1, photoNotFoundMsg p :: tail.2)

/-- The text loop of `process_job` (cli.py lines 425-426): blocks are drawn
in template (insertion) order; a substitution failure raises out of the
job, keeping the events already drawn. -/
def textLoop (subs : List (String × String)) (blocks : List (String × TextBlock)) :
    List Event × Option PyErr :=
  match blocks with
  | [] => ([], none)
  | (name, b) :: rest =>
    match renderText subs b with
    | .error e => ([], some e)
    | .ok rendered =>
      let tail := textLoop subs rest
      (.text name rendered b :: tail.1, tail.2)

/-- Final value of the loop variable `last_index` of `process_job`: it is
initialised to 0 and set to `idx` on every iteration of the photo loop, so
it ends at `min n k - 1` when the loop runs at all, and at 0 otherwise. -/
def lastIndexVal (n k : Nat) : Nat :=
  if min n k = 0 then 0 else min n k - 1

/-- Per-job template copy of `process_job` (cli.py lines 374-378):
`cfg = copy.deepcopy(template_cfg)` followed, when `font_scale != 1.0`, by
the in-place update
`block["size"] = max(1, int(round(float(block["size"]) * font_scale)))` of
every text block of the copy that has a `"size"` key.  All writes target
the deep copy, never the shared `template_cfg`. -/
def scaledCopy (template_cfg : TemplateCfg) (font_scale : ℚ) : TemplateCfg :=
  if font_scale ≠ 1 then
    { template_cfg with
      text_blocks := template_cfg.text_blocks.map fun kv =>
        (kv.1, { kv.2 with size := kv.2.size.map fun s => max 1 (pyRound ((s : ℚ) * font_scale)) }) }
  else template_cfg

/-- Log lines of `create_base_canvas` (cli.py lines 293-309): the only
observable effect modelled is the warning printed for a configured but
missing background template image; the canvas pixels are not modelled. -/
def createBaseCanvasLogs (fs : FS) (canvas : CanvasCfg) : List String :=
  match canvas.template_path with
  | some p => if fs.present p then [] else [templateImgNotFoundMsg p]
  | none => []

/-- The per-job substitution mapping (cli.py lines 398-403). -/
def substitutionsOf (job : Job) : List (String × String) :=
  [("recipient_name", job.recipient_name.getD ""),
   ("giver_name", job.giver_name.getD ""),
   ("message", job.message.getD ""),
   ("project_name", job.project_name.getD "")]

/-- Default output filename (cli.py line 432):
`f"{substitutions['recipient_name'] or 'card'}_{last_index}.png"`. -/
def defaultOutName (recipient : String) (last_index : Nat) : String :=
  (if recipient = "" then "card" else recipient) ++ "_" ++ toString last_index ++ ".png"

/-- Translation of the body of `process_job` (cli.py lines 359-433) up to,
but not including, the final save: it returns the computed output path (or
the raised error) together with the compositing events and log lines in
execution order.  `auto_color` and the returned `bg_rgb` only influence
pixel data, which the trace does not record. -/
def processBody (fs : FS) (job : Job) (template_cfg : TemplateCfg) (output_dir : String)
    (font_scale : ℚ) (remove_bg_jpg : Bool) (photo_scale : ℚ) : BodyOut :=
  let photos := resolvePhotos job.photos
  let cfg := scaledCopy template_cfg font_scale
  let canvasLogs := createBaseCanvasLogs fs cfg.canvas
  match hex_to_rgb (.str (cfg.canvas.background_color.getD DEFAULT_BG_COLOR)) with
  | .error e => { result := .error e, events := [], logs := canvasLogs }
  | .ok _ =>
    let photo_boxes := parse_photo_boxes cfg.photo_boxes
    let text_blocks := parse_text_blocks cfg.text_blocks
    let overlays := parse_overlays cfg.overlays
    if photos ≠ [] ∧ photo_boxes = [] then
      { result := .error (.valueError "Template does not define any photo boxes."),
        events := [], logs := canvasLogs }
    else
      let warnLogs :=
        if photos.length > photo_boxes.length then
          [excessWarningMsg photos.length photo_boxes.length]
        else []
      let beforePass := overlayPass fs overlays "before_photos"
      let subs := substitutionsOf job
      let photoPass :=
        photoLoop fs (List.zip (photos.take photo_boxes.length) photo_boxes) 0
          remove_bg_jpg photo_scale
      let last_index := lastIndexVal photos.length photo_boxes.length
      let afterPass := overlayPass fs overlays "after_photos"
      let textPass := textLoop subs text_blocks
      match textPass.2 with
      | some e =>
        { result := .error e,
          events := beforePass.1 ++ photoPass.1 ++ afterPass.1 ++ textPass.1,
          logs := canvasLogs ++ warnLogs ++ beforePass.2 ++ photoPass.2 ++ afterPass.2 }
      | none =>
        let topPass := overlayPass fs overlays "top"
        let out_name :=
          match job.output_name with
          | some s => if s = "" then defaultOutName (job.recipient_name.getD "") last_index else s
          | none => defaultOutName (job.recipient_name.getD "") last_index
        let out_path := output_dir ++ "/" ++ sanitize_filename out_name ++ ".png"
        { result := .ok out_path,
          events := beforePass.1 ++ photoPass.1 ++ afterPass.1 ++ textPass.1 ++ topPass.1,
          logs := canvasLogs ++ warnLogs ++ beforePass.2 ++ photoPass.2 ++ afterPass.2 ++ topPass.2 }

/-- Translation of `process_job` (cli.py lines 359-436): the body computes
the output path; the final `if not dry_run: base.save(out_path)` is the
only file write of the function and its last action, so nothing is written
when an error is raised or when `dry_run` is set. -/
def process_job (fs : FS) (job : Job) (template_cfg : TemplateCfg) (output_dir : String)
    (_auto_color dry_run : Bool) (font_scale : ℚ) (remove_bg_jpg : Bool)
    (photo_scale : ℚ) : Except PyErr String × Effects :=
  let b := processBody fs job template_cfg output_dir font_scale remove_bg_jpg photo_scale
  match b.result with
  | .ok p =>
    (.ok p, { events := b.events, logs := b.logs, saved := if dry_run then [] else [p] })
  | .error e => (.error e, { events := b.events, logs := b.logs, saved := [] })

/-! ### Helper lemmas about `sanitize_filename` -/

theorem pyWordsAux_mem (l : List Char) :
    ∀ acc : List Char, ' ' ∉ acc →
      ∀ w ∈ pyWordsAux l acc, ∀ c ∈ w, (c ∈ l ∨ c ∈ acc) ∧ c ≠ ' ' := by
  induction l with
  | nil =>
    intro acc hacc w hw c hc
    simp only [pyWordsAux] at hw
    split at hw
    · simp at hw
    · simp only [List.mem_singleton] at hw
      subst hw
      rw [List.mem_reverse] at hc
      exact ⟨Or.inr hc, fun h => hacc (h ▸ hc)⟩
  | cons a rest ih =>
    intro acc hacc w hw c hc
    simp only [pyWordsAux] at hw
    by_cases ha : a = ' '
    · rw [if_pos ha] at hw
      split at hw
      · rcases ih [] (List.not_mem_nil ' ') w hw c hc with ⟨hin, hne⟩
        rcases hin with h | h
        · exact ⟨Or.inl (List.mem_cons_of_mem a h), hne⟩
        · simp at h
      · rcases List.mem_cons.mp hw with h | h
        · subst h
          rw [List.mem_reverse] at hc
          exact ⟨Or.inr hc, fun h => hacc (h ▸ hc)⟩
        · rcases ih [] (List.not_mem_nil ' ') w h c hc with ⟨hin, hne⟩
          rcases hin with h' | h'
          · exact ⟨Or.inl (List.mem_cons_of_mem a h'), hne⟩
          · simp at h'
    · rw [if_neg ha] at hw
      have hacc' : ' ' ∉ a :: acc := by
        intro h
        rcases List.mem_cons.mp h with h | h
        · exact ha h.symm
        · exact hacc h
      rcases ih (a :: acc) hacc' w hw c hc with ⟨hin, hne⟩
      rcases hin with h | h
      · exact ⟨Or.inl (List.mem_cons_of_mem a h), hne⟩
      · rcases List.mem_cons.mp h with h' | h'
        · exact ⟨Or.inl (h' ▸ List.mem_cons_self a rest), hne⟩
        · exact ⟨Or.inr h', hne⟩

theorem pyWordsAux_no_space {l : List Char} (hl : ' ' ∉ l) (acc : List Char) :
    pyWordsAux l acc =
      if acc.reverse ++ l = [] then [] else [acc.reverse ++ l] := by
  induction l generalizing acc with
  | nil => simp [pyWordsAux]
  | cons a rest ih =>
    have ha : ¬a = ' ' := fun h => hl (h ▸ List.mem_cons_self a rest)
    have hrest : ' ' ∉ rest := fun h => hl (List.mem_cons_of_mem a h)
    simp only [pyWordsAux, if_neg ha]
    rw [ih hrest]
    have : (a :: acc).reverse ++ rest = acc.reverse ++ a :: rest := by
      simp
    rw [this]

theorem pyJoin_mem {sep : List Char} : ∀ {ws : List (List Char)} {c : Char},
    c ∈ pyJoin sep ws → c ∈ sep ∨ ∃ w ∈ ws, c ∈ w := by
  intro ws
  induction ws with
  | nil => intro c hc; simp [pyJoin] at hc
  | cons w ws ih =>
    intro c hc
    cases ws with
    | nil => exact Or.inr ⟨w, by simp, by simpa [pyJoin] using hc⟩
    | cons w' ws' =>
      rw [show pyJoin sep (w :: w' :: ws') = w ++ sep ++ pyJoin sep (w' :: ws') from rfl] at hc
      simp only [List.append_assoc, List.mem_append] at hc
      rcases hc with h | h | h
      · exact Or.inr ⟨w, by simp, h⟩
      · exact Or.inl h
      · rcases ih h with h' | ⟨u, hu, hcu⟩
        · exact Or.inl h'
        · exact Or.inr ⟨u, List.mem_cons_of_mem w hu, hcu⟩

theorem sanitize_chars {s : String} {c : Char} (hc : c ∈ (sanitize_filename s).data) :
    pyKeep c = true ∧ c ≠ ' ' := by
  simp only [sanitize_filename] at hc
  rcases pyJoin_mem hc with h | ⟨w, hw, hcw⟩
  · rcases List.mem_singleton.mp h with rfl
    exact ⟨by decide, by decide⟩
  · rcases pyWordsAux_mem _ [] (List.not_mem_nil ' ') w hw c hcw with ⟨hin, hne⟩
    rcases hin with h' | h'
    · exact ⟨(List.mem_filter.mp h').2, hne⟩
    · simp at h'

theorem sanitize_no_dot (s : String) : '.' ∉ (sanitize_filename s).data := by
  intro h
  have := (sanitize_chars h).1
  simp [pyKeep] at this

/-! ### C10 -/

/-- C10: `sanitize_filename` is idempotent, and every character of its
output is an (ASCII) alphanumeric, an underscore or a hyphen — in
particular the output contains no spaces. -/
theorem sanitize_filename_idempotent (s : String) :
    sanitize_filename (sanitize_filename s) = sanitize_filename s ∧
    ∀ c ∈ (sanitize_filename s).data, c.isAlphanum = true ∨ c = '_' ∨ c = '-' := by
  constructor
  · have hchars : ∀ c ∈ (sanitize_filename s).data, pyKeep c = true ∧ c ≠ ' ' :=
      fun c hc => sanitize_chars hc
    have hfilter : (sanitize_filename s).data.filter pyKeep = (sanitize_filename s).data :=
      List.filter_eq_self.mpr fun c hc => (hchars c hc).1
    have hnospace : ' ' ∉ (sanitize_filename s).data :=
      fun h => (hchars ' ' h).2 rfl
    show String.mk (pyJoin ['_'] (pyWords ((sanitize_filename s).data.filter pyKeep))) = _
    rw [hfilter]
    rw [show pyWords (sanitize_filename s).data =
        pyWordsAux (sanitize_filename s).data [] from rfl]
    rw [pyWordsAux_no_space hnospace]
    by_cases hempty : (sanitize_filename s).data = []
    · simp only [List.reverse_nil, List.nil_append, hempty, if_pos]
      cases hs : sanitize_filename s with
      | mk d =>
        rw [hs] at hempty
        simp only [pyJoin]
        exact congrArg String.mk hempty.symm
    · simp only [List.reverse_nil, List.nil_append, if_neg hempty, pyJoin]
  · intro c hc
    rcases sanitize_chars hc with ⟨hk, hne⟩
    simp only [pyKeep, Bool.or_eq_true, beq_iff_eq] at hk
    rcases hk with ((h | h) | h) | h
    · exact Or.inl h
    · exact Or.inr (Or.inl h)
    · exact Or.inr (Or.inr h)
    · exact absurd h hne

/-- Witness for C10 at the spec's own example `"My Card! #1"`. -/
theorem sanitize_filename_idempotent_witness :
    sanitize_filename (sanitize_filename "My Card! #1") = sanitize_filename "My Card! #1" ∧
    ('M'.isAlphanum = true ∨ 'M' = '_' ∨ 'M' = '-') :=
  ⟨(sanitize_filename_idempotent "My Card! #1").1,
   (sanitize_filename_idempotent "My Card! #1").2 'M' (by decide)⟩

/-! ### Helper lemmas about `hex_to_rgb` -/

/-- The 22 characters accepted as hexadecimal digits: the decimal digits
and the first six letters in both cases. -/
def hexChars : List Char :=
  ((List.range 10).map fun i => Char.ofNat ('0'.toNat + i)) ++
    ((List.range 6).map fun i => Char.ofNat ('a'.toNat + i)) ++
    ((List.range 6).map fun i => Char.ofNat ('A'.toNat + i))

/-- Numeric value of a hexadecimal digit character (0 for non-digits). -/
def hexCharVal (c : Char) : Nat :=
  (hexDigitVal c).getD 0

theorem dropWhile_eq_self_of_forall {α : Type} (p : α → Bool) (l : List α)
    (h : ∀ c ∈ l, p c = false) : l.dropWhile p = l := by
  cases l with
  | nil => rfl
  | cons a rest =>
    rw [List.dropWhile_cons, h a (List.mem_cons_self a rest)]
    simp

theorem pyStrip_eq_self {l : List Char} (h : ∀ c ∈ l, c.isWhitespace = false) :
    pyStrip l = l := by
  unfold pyStrip
  rw [dropWhile_eq_self_of_forall _ l h]
  rw [dropWhile_eq_self_of_forall _ l.reverse fun c hc => h c (List.mem_reverse.mp hc)]
  exact List.reverse_reverse l

theorem hexChars_ok : ∀ c ∈ hexChars,
    c.isWhitespace = false ∧ pyIntHex [c, c] = .ok (17 * (hexCharVal c : Int)) := by
  decide

theorem hex_to_rgb_three {c1 c2 c3 : Char}
    (h1 : c1 ∈ hexChars) (h2 : c2 ∈ hexChars) (h3 : c3 ∈ hexChars) :
    hex_to_rgb (.str (String.mk ['#', c1, c2, c3])) =
      .ok (17 * (hexCharVal c1 : Int), 17 * (hexCharVal c2 : Int), 17 * (hexCharVal c3 : Int)) := by
  have o1 := hexChars_ok c1 h1
  have o2 := hexChars_ok c2 h2
  have o3 := hexChars_ok c3 h3
  have hws : ∀ c ∈ ['#', c1, c2, c3], c.isWhitespace = false := by
    intro c hc
    simp only [List.mem_cons, List.not_mem_nil, or_false] at hc
    rcases hc with rfl | rfl | rfl | rfl
    · decide
    · exact o1.1
    · exact o2.1
    · exact o3.1
  have hstrip : pyStrip (String.mk ['#', c1, c2, c3]).data = ['#', c1, c2, c3] :=
    pyStrip_eq_self hws
  simp only [hex_to_rgb, hstrip, o1.2, o2.2, o3.2, Except.bind, bind, pure, Except.pure]

theorem hex_to_rgb_six {c1 c2 c3 : Char}
    (h1 : c1 ∈ hexChars) (h2 : c2 ∈ hexChars) (h3 : c3 ∈ hexChars) :
    hex_to_rgb (.str (String.mk ['#', c1, c1, c2, c2, c3, c3])) =
      .ok (17 * (hexCharVal c1 : Int), 17 * (hexCharVal c2 : Int), 17 * (hexCharVal c3 : Int)) := by
  have o1 := hexChars_ok c1 h1
  have o2 := hexChars_ok c2 h2
  have o3 := hexChars_ok c3 h3
  have hws : ∀ c ∈ ['#', c1, c1, c2, c2, c3, c3], c.isWhitespace = false := by
    intro c hc
    simp only [List.mem_cons, List.not_mem_nil, or_false] at hc
    rcases hc with rfl | rfl | rfl | rfl | rfl | rfl | rfl
    · decide
    · exact o1.1
    · exact o1.1
    · exact o2.1
    · exact o2.1
    · exact o3.1
    · exact o3.1
  have hstrip : pyStrip (String.mk ['#', c1, c1, c2, c2, c3, c3]).data =
      ['#', c1, c1, c2, c2, c3, c3] := pyStrip_eq_self hws
  simp only [hex_to_rgb, hstrip, o1.2, o2.2, o3.2, Except.bind, bind, pure, Except.pure]

/-! ### C6 -/

/-- C6: every three-hex-digit colour `#abc` parses to the same triple as its
digit-doubled six-digit form `#aabbcc` (each channel being 17 times the
digit value); non-strings, strings without a leading `#` after stripping,
and `#`-strings of the wrong length yield the default `(245, 246, 250)`.
(A `#`-string of the right length whose characters are not hexadecimal
digits does NOT yield the default: `int(_, 16)` raises, see the
counterexample.) -/
theorem hex_to_rgb_spec :
    (∀ c1 c2 c3 : Char, c1 ∈ hexChars → c2 ∈ hexChars → c3 ∈ hexChars →
      hex_to_rgb (.str (String.mk ['#', c1, c2, c3])) =
          .ok (17 * (hexCharVal c1 : Int), 17 * (hexCharVal c2 : Int), 17 * (hexCharVal c3 : Int)) ∧
        hex_to_rgb (.str (String.mk ['#', c1, c1, c2, c2, c3, c3])) =
          hex_to_rgb (.str (String.mk ['#', c1, c2, c3]))) ∧
    hex_to_rgb .other = .ok (245, 246, 250) ∧
    (∀ s : String, (pyStrip s.data).head? ≠ some '#' →
      hex_to_rgb (.str s) = .ok (245, 246, 250)) ∧
    (∀ s : String, (pyStrip s.data).length ≠ 4 → (pyStrip s.data).length ≠ 7 →
      hex_to_rgb (.str s) = .ok (245, 246, 250)) := by
  refine ⟨fun c1 c2 c3 h1 h2 h3 => ⟨hex_to_rgb_three h1 h2 h3, ?_⟩, rfl, ?_, ?_⟩
  · rw [hex_to_rgb_three h1 h2 h3, hex_to_rgb_six h1 h2 h3]
  · intro s hhead
    cases hl : pyStrip s.data with
    | nil => simp only [hex_to_rgb, hl]
    | cons c rest =>
      have hc : c ≠ '#' := by
        rw [hl] at hhead
        simpa using hhead
      simp only [hex_to_rgb, hl]
      split <;> simp_all
  · intro s h4 h7
    cases hl : pyStrip s.data with
    | nil => simp only [hex_to_rgb, hl]
    | cons c rest =>
      rw [hl] at h4 h7
      simp only [hex_to_rgb, hl]
      split
      · split <;> simp_all
      · simp_all

/-- Counterexample for C6 as frozen: `"#ggg"` is a malformed 3-digit form,
yet `hex_to_rgb` raises `ValueError` from `int("gg", 16)` instead of
returning the default tuple. -/
theorem hex_to_rgb_invalid_cex :
    hex_to_rgb (.str "#ggg") = .error (.valueError "invalid literal for int() with base 16") ∧
    hex_to_rgb (.str "#ggg") ≠ .ok (245, 246, 250) := by
  decide

/-- Witness for C6 at `#abc` / `#aabbcc`, a non-`#` string, and a
wrong-length string. -/
theorem hex_to_rgb_spec_witness :
    (hex_to_rgb (.str (String.mk ['#', 'a', 'b', 'c'])) =
        .ok (17 * (hexCharVal 'a' : Int), 17 * (hexCharVal 'b' : Int), 17 * (hexCharVal 'c' : Int)) ∧
      hex_to_rgb (.str (String.mk ['#', 'a', 'a', 'b', 'b', 'c', 'c'])) =
        hex_to_rgb (.str (String.mk ['#', 'a', 'b', 'c']))) ∧
    hex_to_rgb (.str "hello") = .ok (245, 246, 250) ∧
    hex_to_rgb (.str "#abcd") = .ok (245, 246, 250) :=
  ⟨hex_to_rgb_spec.1 'a' 'b' 'c' (by decide) (by decide) (by decide),
   hex_to_rgb_spec.2.2.1 "hello" (by decide),
   hex_to_rgb_spec.2.2.2 "#abcd" (by decide) (by decide)⟩

/-! ### Helper lemmas about `fit_image` -/

theorem fit_image_eq_wide {imgW imgH width height : Nat}
    (hcond : (width : ℚ) / (height : ℚ) < (imgW : ℚ) / (imgH : ℚ)) :
    fit_image imgW imgH width height =
      (let nw := (pyTruncInt ((height : ℚ) * ((imgW : ℚ) / (imgH : ℚ)))).toNat
       let left : Int := ((nw : Int) - (width : Int)) / 2
       let top : Int := ((height : Int) - (height : Int)) / 2
       { new_width := nw, new_height := height, left := left, top := top,
         crop_right := left + (width : Int), crop_bottom := top + (height : Int),
         out_width := ((left + (width : Int)) - left).toNat,
         out_height := ((top + (height : Int)) - top).toNat }) := by
  simp only [fit_image, gt_iff_lt, if_pos hcond]

theorem fit_image_eq_tall {imgW imgH width height : Nat}
    (hcond : ¬((width : ℚ) / (height : ℚ) < (imgW : ℚ) / (imgH : ℚ))) :
    fit_image imgW imgH width height =
      (let nh := (pyTruncInt ((width : ℚ) / ((imgW : ℚ) / (imgH : ℚ)))).toNat
       let left : Int := ((width : Int) - (width : Int)) / 2
       let top : Int := ((nh : Int) - (height : Int)) / 2
       { new_width := width, new_height := nh, left := left, top := top,
         crop_right := left + (width : Int), crop_bottom := top + (height : Int),
         out_width := ((left + (width : Int)) - left).toNat,
         out_height := ((top + (height : Int)) - top).toNat }) := by
  simp only [fit_image, gt_iff_lt, if_neg hcond]

/-! ### C1 -/

/-- C1: for a source image of positive dimensions and a target box of
positive dimensions, `fit_image` crops to exactly `(width, height)` pixels;
the resize step scales both dimensions by the larger of the two cover
ratios `width/imgW` and `height/imgH` (the dimension realising the maximum
exactly, the other rounded down to the pixel), so the resized image covers
the box; and the crop window is centred in the resized image, its two
margins differing by at most one pixel of floor rounding. -/
theorem fit_image_spec (imgW imgH width height : Nat)
    (hiw : 0 < imgW) (hih : 0 < imgH) (hw : 0 < width) (hh : 0 < height) :
    (fit_image imgW imgH width height).out_width = width ∧
    (fit_image imgW imgH width height).out_height = height ∧
    ((fit_image imgW imgH width height).new_width : ℤ) =
      ⌊(imgW : ℚ) * max ((width : ℚ) / (imgW : ℚ)) ((height : ℚ) / (imgH : ℚ))⌋ ∧
    ((fit_image imgW imgH width height).new_height : ℤ) =
      ⌊(imgH : ℚ) * max ((width : ℚ) / (imgW : ℚ)) ((height : ℚ) / (imgH : ℚ))⌋ ∧
    width ≤ (fit_image imgW imgH width height).new_width ∧
    height ≤ (fit_image imgW imgH width height).new_height ∧
    2 * (fit_image imgW imgH width height).left ≤
      ((fit_image imgW imgH width height).new_width : ℤ) - width ∧
    ((fit_image imgW imgH width height).new_width : ℤ) - width ≤
      2 * (fit_image imgW imgH width height).left + 1 ∧
    0 ≤ (fit_image imgW imgH width height).left ∧
    2 * (fit_image imgW imgH width height).top ≤
      ((fit_image imgW imgH width height).new_height : ℤ) - height ∧
    ((fit_image imgW imgH width height).new_height : ℤ) - height ≤
      2 * (fit_image imgW imgH width height).top + 1 ∧
    0 ≤ (fit_image imgW imgH width height).top := by
  have hiw' : (0 : ℚ) < imgW := by exact_mod_cast hiw
  have hih' : (0 : ℚ) < imgH := by exact_mod_cast hih
  have hw' : (0 : ℚ) < width := by exact_mod_cast hw
  have hh' : (0 : ℚ) < height := by exact_mod_cast hh
  by_cases hcond : (width : ℚ) / (height : ℚ) < (imgW : ℚ) / (imgH : ℚ)
  · -- wide case: the height ratio is the larger cover ratio
    have hrat : (width : ℚ) / (imgW : ℚ) < (height : ℚ) / (imgH : ℚ) := by
      rw [div_lt_div_iff₀ hh' hih'] at hcond
      rw [div_lt_div_iff₀ hiw' hih']
      linarith [hcond]
    have hs : max ((width : ℚ) / (imgW : ℚ)) ((height : ℚ) / (imgH : ℚ)) =
        (height : ℚ) / (imgH : ℚ) := max_eq_right (le_of_lt hrat)
    have hq : (0 : ℚ) < (height : ℚ) * ((imgW : ℚ) / (imgH : ℚ)) :=
      mul_pos hh' (div_pos hiw' hih')
    have htr : pyTruncInt ((height : ℚ) * ((imgW : ℚ) / (imgH : ℚ))) =
        ⌊(height : ℚ) * ((imgW : ℚ) / (imgH : ℚ))⌋ := by
      rw [pyTruncInt, if_neg (not_lt.mpr (le_of_lt hq))]
    have hwq : (width : ℚ) < (height : ℚ) * ((imgW : ℚ) / (imgH : ℚ)) := by
      rw [div_lt_div_iff₀ hh' hih'] at hcond
      rw [show (height : ℚ) * ((imgW : ℚ) / (imgH : ℚ)) =
          ((height : ℚ) * (imgW : ℚ)) / (imgH : ℚ) from (mul_div_assoc _ _ _).symm]
      rw [lt_div_iff₀ hih']
      linarith [hcond]
    have hfl : (width : ℤ) ≤ ⌊(height : ℚ) * ((imgW : ℚ) / (imgH : ℚ))⌋ := by
      rw [Int.le_floor]
      push_cast
      exact le_of_lt hwq
    have hfl0 : 0 ≤ ⌊(height : ℚ) * ((imgW : ℚ) / (imgH : ℚ))⌋ :=
      le_trans (by positivity) hfl
    have htn : (((⌊(height : ℚ) * ((imgW : ℚ) / (imgH : ℚ))⌋).toNat : ℤ)) =
        ⌊(height : ℚ) * ((imgW : ℚ) / (imgH : ℚ))⌋ := Int.toNat_of_nonneg hfl0
    rw [fit_image_eq_wide hcond]
    simp only [htr]
    refine ⟨by omega, by omega, ?_, ?_, ?_, le_refl _, by omega, ?_, by omega, by omega, by omega, by omega⟩
    · rw [hs, htn]
      congr 1
      ring
    · rw [hs]
      rw [show (imgH : ℚ) * ((height : ℚ) / (imgH : ℚ)) = (height : ℚ) by
        field_simp]
      exact (Int.floor_natCast height).symm
    · have : (width : ℤ) ≤ ((⌊(height : ℚ) * ((imgW : ℚ) / (imgH : ℚ))⌋).toNat : ℤ) := by
        rw [htn]; exact hfl
      exact_mod_cast this
    · omega
  · -- tall case: the width ratio is the larger cover ratio
    have hrat : (height : ℚ) / (imgH : ℚ) ≤ (width : ℚ) / (imgW : ℚ) := by
      rw [not_lt] at hcond
      rw [div_le_div_iff₀ hih' hh'] at hcond
      rw [div_le_div_iff₀ hih' hiw']
      linarith [hcond]
    have hs : max ((width : ℚ) / (imgW : ℚ)) ((height : ℚ) / (imgH : ℚ)) =
        (width : ℚ) / (imgW : ℚ) := max_eq_left hrat
    have hratio_pos : (0 : ℚ) < (imgW : ℚ) / (imgH : ℚ) := div_pos hiw' hih'
    have hqeq : (width : ℚ) / ((imgW : ℚ) / (imgH : ℚ)) =
        ((width : ℚ) * (imgH : ℚ)) / (imgW : ℚ) := by
      field_simp
    have hq : (0 : ℚ) < (width : ℚ) / ((imgW : ℚ) / (imgH : ℚ)) :=
      div_pos hw' hratio_pos
    have htr : pyTruncInt ((width : ℚ) / ((imgW : ℚ) / (imgH : ℚ))) =
        ⌊(width : ℚ) / ((imgW : ℚ) / (imgH : ℚ))⌋ := by
      rw [pyTruncInt, if_neg (not_lt.mpr (le_of_lt hq))]
    have hhq : (height : ℚ) ≤ (width : ℚ) / ((imgW : ℚ) / (imgH : ℚ)) := by
      rw [hqeq, le_div_iff₀ hiw']
      rw [div_le_div_iff₀ hih' hiw'] at hrat
      linarith [hrat]
    have hfl : (height : ℤ) ≤ ⌊(width : ℚ) / ((imgW : ℚ) / (imgH : ℚ))⌋ := by
      rw [Int.le_floor]
      push_cast
      exact hhq
    have hfl0 : 0 ≤ ⌊(width : ℚ) / ((imgW : ℚ) / (imgH : ℚ))⌋ :=
      le_trans (by positivity) hfl
    have htn : (((⌊(width : ℚ) / ((imgW : ℚ) / (imgH : ℚ))⌋).toNat : ℤ)) =
        ⌊(width : ℚ) / ((imgW : ℚ) / (imgH : ℚ))⌋ := Int.toNat_of_nonneg hfl0
    rw [fit_image_eq_tall hcond]
    simp only [htr]
    refine ⟨by omega, by omega, ?_, ?_, le_refl _, ?_, by omega, by omega, by omega, ?_, by omega, by omega⟩
    · rw [hs]
      rw [show (imgW : ℚ) * ((width : ℚ) / (imgW : ℚ)) = (width : ℚ) by
        field_simp]
      exact (Int.floor_natCast width).symm
    · rw [hs, htn]
      congr 1
      rw [hqeq]
      ring
    · have : (height : ℤ) ≤ ((⌊(width : ℚ) / ((imgW : ℚ) / (imgH : ℚ))⌋).toNat : ℤ) := by
        rw [htn]; exact hfl
      exact_mod_cast this
    · omega

/-- Witness for C1 at a 4 × 3 source fitted into a 2 × 2 box. -/
theorem fit_image_spec_witness :
    (fit_image 4 3 2 2).out_width = 2 ∧
    (fit_image 4 3 2 2).out_height = 2 ∧
    ((fit_image 4 3 2 2).new_width : ℤ) =
      ⌊(4 : ℚ) * max ((2 : ℚ) / (4 : ℚ)) ((2 : ℚ) / (3 : ℚ))⌋ ∧
    ((fit_image 4 3 2 2).new_height : ℤ) =
      ⌊(3 : ℚ) * max ((2 : ℚ) / (4 : ℚ)) ((2 : ℚ) / (3 : ℚ))⌋ ∧
    2 ≤ (fit_image 4 3 2 2).new_width ∧
    2 ≤ (fit_image 4 3 2 2).new_height ∧
    2 * (fit_image 4 3 2 2).left ≤ ((fit_image 4 3 2 2).new_width : ℤ) - 2 ∧
    ((fit_image 4 3 2 2).new_width : ℤ) - 2 ≤ 2 * (fit_image 4 3 2 2).left + 1 ∧
    0 ≤ (fit_image 4 3 2 2).left ∧
    2 * (fit_image 4 3 2 2).top ≤ ((fit_image 4 3 2 2).new_height : ℤ) - 2 ∧
    ((fit_image 4 3 2 2).new_height : ℤ) - 2 ≤ 2 * (fit_image 4 3 2 2).top + 1 ∧
    0 ≤ (fit_image 4 3 2 2).top := by
  have h := fit_image_spec 4 3 2 2 (by norm_num) (by norm_num) (by norm_num) (by norm_num)
  exact_mod_cast h

/-! ### Helper lemmas about the mask pipeline -/

theorem foldr_min_le_init (l : List ℕ) (b : ℕ) : l.foldr min b ≤ b := by
  induction l with
  | nil => exact le_refl b
  | cons a l ih => exact le_trans (min_le_right a _) ih

theorem clampCoord_eq {x n : Nat} (h : x < n) : clampCoord (x : Int) n = x := by
  simp only [clampCoord]
  omega

theorem minFilter3_le {img : GrayImage} {x y : Nat}
    (hx : x < img.width) (hy : y < img.height) :
    (minFilter3 img).pix x y ≤ img.pix x y := by
  have hcx := clampCoord_eq (n := img.width) hx
  have hcy := clampCoord_eq (n := img.height) hy
  simp only [minFilter3, hcx, hcy]
  exact foldr_min_le_init _ _

theorem minFilter3_le_255 {img : GrayImage} (hb : ∀ i j, img.pix i j ≤ 255) (x y : Nat) :
    (minFilter3 img).pix x y ≤ 255 :=
  le_trans (foldr_min_le_init _ _) (hb _ _)

theorem multiplyMask_le_left {a b : GrayImage} (hb : ∀ i j, b.pix i j ≤ 255) (x y : Nat) :
    (multiplyMask a b).pix x y ≤ a.pix x y := by
  show a.pix x y * b.pix x y / 255 ≤ a.pix x y
  calc a.pix x y * b.pix x y / 255 ≤ a.pix x y * 255 / 255 :=
        Nat.div_le_div_right (Nat.mul_le_mul_left _ (hb x y))
    _ = a.pix x y := Nat.mul_div_cancel _ (by norm_num)

theorem multiplyMask_le_right {a b : GrayImage} {x y : Nat} (ha : a.pix x y ≤ 255) :
    (multiplyMask a b).pix x y ≤ b.pix x y := by
  show a.pix x y * b.pix x y / 255 ≤ b.pix x y
  calc a.pix x y * b.pix x y / 255 ≤ 255 * b.pix x y / 255 :=
        Nat.div_le_div_right (Nat.mul_le_mul_right _ ha)
    _ = b.pix x y := Nat.mul_div_cancel_left _ (by norm_num)

theorem rounded_mask_le_255 (w h r x y : Nat) : (rounded_mask w h r).pix x y ≤ 255 := by
  simp only [rounded_mask]
  repeat' split
  all_goals norm_num

/-! ### C5 -/

/-- C5 (amended): before the optional feathering blur, the mask combination
of `paste_photo` is a multiplicative intersection: at every image pixel the
combined mask is no more opaque than the photo's transparency channel, than
the eroded matte mask when background removal with a matte colour applies,
and than the rounded-corner mask when the box rounds corners; when
background removal is not applied, the final compositing mask is exactly
this combined mask.  (When background removal is applied, the final
Gaussian feathering can exceed these bounds: see the counterexample.) -/
theorem combined_mask_intersection (alpha : GrayImage) (remove_bg has_bg_color : Bool)
    (border_radius : Int) (scale : ℚ) (x y : Nat)
    (hb : ∀ i j, alpha.pix i j ≤ 255) (hx : x < alpha.width) (hy : y < alpha.height) :
    (combined_mask alpha remove_bg has_bg_color border_radius scale).pix x y ≤ alpha.pix x y ∧
    (remove_bg = true → has_bg_color = true →
      (combined_mask alpha remove_bg has_bg_color border_radius scale).pix x y ≤
        (minFilter3 alpha).pix x y) ∧
    (0 < border_radius →
      (combined_mask alpha remove_bg has_bg_color border_radius scale).pix x y ≤
        (rounded_mask alpha.width alpha.height (radiusScaled border_radius scale)).pix x y) ∧
    (remove_bg = false →
      (paste_mask alpha remove_bg has_bg_color border_radius scale).pix x y =
        (combined_mask alpha remove_bg has_bg_color border_radius scale).pix x y) := by
  have hbase_le_alpha :
      (if remove_bg && has_bg_color then minFilter3 alpha else alpha).pix x y ≤ alpha.pix x y := by
    split
    · exact minFilter3_le hx hy
    · exact le_refl _
  have hbase255 :
      (if remove_bg && has_bg_color then minFilter3 alpha else alpha).pix x y ≤ 255 := by
    split
    · exact minFilter3_le_255 hb x y
    · exact hb x y
  refine ⟨?_, ?_, ?_, ?_⟩
  · simp only [combined_mask]
    split
    · exact le_trans
        (multiplyMask_le_left (fun i j => rounded_mask_le_255 _ _ _ i j) x y) hbase_le_alpha
    · exact hbase_le_alpha
  · intro h1 h2
    have hm : (remove_bg && has_bg_color) = true := by rw [h1, h2]; rfl
    simp only [combined_mask, hm, if_pos]
    split
    · exact multiplyMask_le_left (fun i j => rounded_mask_le_255 _ _ _ i j) x y
    · exact le_refl _
  · intro hr
    simp only [combined_mask, if_pos hr]
    exact multiplyMask_le_right hbase255
  · intro hrb
    simp only [paste_mask, hrb, Bool.false_eq_true, if_false]

/-- Transparency channel used by the C5 counterexample: a 5 × 5 opaque image
with a single fully transparent pixel at (2,2). -/
def cexAlpha : GrayImage :=
  ⟨5, 5, fun x y => if x = 2 ∧ y = 2 then 0 else 255⟩

/-- Counterexample for C5 as frozen: with background removal (which triggers
the final Gaussian feathering), the final compositing mask at the fully
transparent pixel (2,2) has value 59, strictly more opaque than both of its
inputs there — the transparency channel (0) and the eroded matte mask (0).
So the final mask is not bounded by each individual input. -/
theorem paste_mask_blur_cex :
    (paste_mask cexAlpha true true 0 1).pix 2 2 = 59 ∧
    cexAlpha.pix 2 2 = 0 ∧
    (minFilter3 cexAlpha).pix 2 2 = 0 ∧
    ¬((paste_mask cexAlpha true true 0 1).pix 2 2 ≤ cexAlpha.pix 2 2) := by
  decide

/-- Witness for C5 (amended) on a 3 × 3 constant-200 channel, once with
matte + corner rounding and once without background removal. -/
theorem combined_mask_intersection_witness :
    (combined_mask ⟨3, 3, fun _ _ => 200⟩ true true 5 1).pix 1 1 ≤
      (⟨3, 3, fun _ _ => 200⟩ : GrayImage).pix 1 1 ∧
    (combined_mask ⟨3, 3, fun _ _ => 200⟩ true true 5 1).pix 1 1 ≤
      (minFilter3 ⟨3, 3, fun _ _ => 200⟩).pix 1 1 ∧
    (combined_mask ⟨3, 3, fun _ _ => 200⟩ true true 5 1).pix 1 1 ≤
      (rounded_mask 3 3 (radiusScaled 5 1)).pix 1 1 ∧
    (paste_mask ⟨3, 3, fun _ _ => 200⟩ false true 5 1).pix 1 1 =
      (combined_mask ⟨3, 3, fun _ _ => 200⟩ false true 5 1).pix 1 1 := by
  have h1 := combined_mask_intersection ⟨3, 3, fun _ _ => 200⟩ true true 5 1 1 1
    (fun _ _ => by norm_num) (by norm_num) (by norm_num)
  have h2 := combined_mask_intersection ⟨3, 3, fun _ _ => 200⟩ false true 5 1 1 1
    (fun _ _ => by norm_num) (by norm_num) (by norm_num)
  exact ⟨h1.1, h1.2.1 rfl rfl, h1.2.2.1 (by norm_num), h2.2.2.2 rfl⟩

/-! ### Helper lemmas about the job pipeline -/

theorem scaledCopy_photo_boxes (cfg : TemplateCfg) (f : ℚ) :
    (scaledCopy cfg f).photo_boxes = cfg.photo_boxes := by
  rw [scaledCopy]
  split <;> rfl

theorem scaledCopy_canvas (cfg : TemplateCfg) (f : ℚ) :
    (scaledCopy cfg f).canvas = cfg.canvas := by
  rw [scaledCopy]
  split <;> rfl

theorem scaledCopy_overlays (cfg : TemplateCfg) (f : ℚ) :
    (scaledCopy cfg f).overlays = cfg.overlays := by
  rw [scaledCopy]
  split <;> rfl

/-- What `processBody` computes when the background colour fails to parse:
the error propagates out of the job before any compositing or saving. -/
theorem processBody_hex_error (fs : FS) (job : Job) (cfg : TemplateCfg) (out : String)
    (f : ℚ) (rbj : Bool) (ps : ℚ) (e : PyErr)
    (hhex : hex_to_rgb (.str (cfg.canvas.background_color.getD DEFAULT_BG_COLOR)) = .error e) :
    processBody fs job cfg out f rbj ps =
      { result := .error e, events := [], logs := createBaseCanvasLogs fs cfg.canvas } := by
  simp only [processBody, scaledCopy_canvas, hhex]

/-- What `processBody` computes when photos are supplied against a template
with zero photo boxes: the dedicated `ValueError`, before any compositing. -/
theorem processBody_zero_boxes (fs : FS) (job : Job) (cfg : TemplateCfg) (out : String)
    (f : ℚ) (rbj : Bool) (ps : ℚ) (rgb : Int × Int × Int)
    (hhex : hex_to_rgb (.str (cfg.canvas.background_color.getD DEFAULT_BG_COLOR)) = .ok rgb)
    (hp : resolvePhotos job.photos ≠ []) (hb : cfg.photo_boxes = []) :
    processBody fs job cfg out f rbj ps =
      { result := .error (.valueError "Template does not define any photo boxes."),
        events := [], logs := createBaseCanvasLogs fs cfg.canvas } := by
  have hb' : parse_photo_boxes (scaledCopy cfg f).photo_boxes = [] := by
    rw [scaledCopy_photo_boxes, hb]
    rfl
  simp only [processBody, scaledCopy_canvas, hhex, hb']
  rw [if_pos ⟨hp, trivial⟩]

/-- The main branch of `processBody`: with a parsed background colour and
the zero-box guard passed, the body is the five compositing phases in
order, followed by the filename computation. -/
theorem processBody_run (fs : FS) (job : Job) (cfg : TemplateCfg) (out : String)
    (f : ℚ) (rbj : Bool) (ps : ℚ) (rgb : Int × Int × Int)
    (hhex : hex_to_rgb (.str (cfg.canvas.background_color.getD DEFAULT_BG_COLOR)) = .ok rgb)
    (hcond : ¬(resolvePhotos job.photos ≠ [] ∧ parse_photo_boxes cfg.photo_boxes = [])) :
    processBody fs job cfg out f rbj ps =
      (let photos := resolvePhotos job.photos
       let canvasLogs := createBaseCanvasLogs fs cfg.canvas
       let photo_boxes := parse_photo_boxes cfg.photo_boxes
       let text_blocks := parse_text_blocks (scaledCopy cfg f).text_blocks
       let overlays := parse_overlays cfg.overlays
       let warnLogs :=
         if photos.length > photo_boxes.length then
           [excessWarningMsg photos.length photo_boxes.length]
         else []
       let beforePass := overlayPass fs overlays "before_photos"
       let subs := substitutionsOf job
       let photoPass := photoLoop fs (List.zip (photos.take photo_boxes.length) photo_boxes) 0 rbj ps
       let last_index := lastIndexVal photos.length photo_boxes.length
       let afterPass := overlayPass fs overlays "after_photos"
       let textPass := textLoop subs text_blocks
       match textPass.2 with
       | some e =>
         { result := .error e,
           events := beforePass.1 ++ photoPass.1 ++ afterPass.1 ++ textPass.1,
           logs := canvasLogs ++ warnLogs ++ beforePass.2 ++ photoPass.2 ++ afterPass.2 }
       | none =>
         let topPass := overlayPass fs overlays "top"
         let out_name :=
           match job.output_name with
           | some s => if s = "" then defaultOutName (job.recipient_name.getD "") last_index else s
           | none => defaultOutName (job.recipient_name.getD "") last_index
         let out_path := out ++ "/" ++ sanitize_filename out_name ++ ".png"
         { result := .ok out_path,
           events := beforePass.1 ++ photoPass.1 ++ afterPass.1 ++ textPass.1 ++ topPass.1,
           logs := canvasLogs ++ warnLogs ++ beforePass.2 ++ photoPass.2 ++ afterPass.2 ++ topPass.2 }) := by
  simp only [processBody, scaledCopy_canvas, scaledCopy_photo_boxes, scaledCopy_overlays, hhex,
    if_neg hcond]

/-! ### C2 -/

/-- C2: a job with a non-empty photo list against a template with zero
photo boxes fails (with the dedicated `ValueError` when the background
colour parses — any failure of `process_job` is a `ValueError` here), and
no file is saved and nothing is composited: the error is raised before any
compositing or saving. -/
theorem process_job_zero_boxes (fs : FS) (job : Job) (template_cfg : TemplateCfg)
    (output_dir : String) (auto_color dry_run : Bool) (font_scale : ℚ)
    (remove_bg_jpg : Bool) (photo_scale : ℚ)
    (hp : resolvePhotos job.photos ≠ [])
    (hb : template_cfg.photo_boxes = []) :
    (∃ e, (process_job fs job template_cfg output_dir auto_color dry_run font_scale
        remove_bg_jpg photo_scale).1 = .error e) ∧
    (process_job fs job template_cfg output_dir auto_color dry_run font_scale
        remove_bg_jpg photo_scale).2.saved = [] ∧
    (process_job fs job template_cfg output_dir auto_color dry_run font_scale
        remove_bg_jpg photo_scale).2.events = [] ∧
    (∀ rgb : Int × Int × Int,
      hex_to_rgb (.str (template_cfg.canvas.background_color.getD DEFAULT_BG_COLOR)) = .ok rgb →
      (process_job fs job template_cfg output_dir auto_color dry_run font_scale
          remove_bg_jpg photo_scale).1 =
        .error (.valueError "Template does not define any photo boxes.")) := by
  cases hhex : hex_to_rgb (.str (template_cfg.canvas.background_color.getD DEFAULT_BG_COLOR)) with
  | error e =>
    have hbody := processBody_hex_error fs job template_cfg output_dir font_scale
      remove_bg_jpg photo_scale e hhex
    have hrun : process_job fs job template_cfg output_dir auto_color dry_run font_scale
        remove_bg_jpg photo_scale =
        (.error e, ⟨[], createBaseCanvasLogs fs template_cfg.canvas, []⟩) := by
      simp only [process_job, hbody]
    refine ⟨⟨e, by rw [hrun]⟩, by rw [hrun], by rw [hrun], ?_⟩
    intro rgb hok
    simp at hok
  | ok rgb =>
    have hbody := processBody_zero_boxes fs job template_cfg output_dir font_scale
      remove_bg_jpg photo_scale rgb hhex hp hb
    have hrun : process_job fs job template_cfg output_dir auto_color dry_run font_scale
        remove_bg_jpg photo_scale =
        (.error (.valueError "Template does not define any photo boxes."),
          ⟨[], createBaseCanvasLogs fs template_cfg.canvas, []⟩) := by
      simp only [process_job, hbody]
    exact ⟨⟨_, by rw [hrun]⟩, by rw [hrun], by rw [hrun], fun rgb' hok => by rw [hrun]⟩

/-- Witness for C2: one photo, a template with no boxes. -/
theorem process_job_zero_boxes_witness :
    (∃ e, (process_job ⟨fun _ => true⟩ { photos := .list ["p.png"] } {} "output" true false 1
        false (13/10)).1 = .error e) ∧
    (process_job ⟨fun _ => true⟩ { photos := .list ["p.png"] } {} "output" true false 1
        false (13/10)).2.saved = [] ∧
    (process_job ⟨fun _ => true⟩ { photos := .list ["p.png"] } {} "output" true false 1
        false (13/10)).2.events = [] ∧
    (∀ rgb : Int × Int × Int,
      hex_to_rgb (.str (({} : TemplateCfg).canvas.background_color.getD DEFAULT_BG_COLOR)) = .ok rgb →
      (process_job ⟨fun _ => true⟩ { photos := .list ["p.png"] } {} "output" true false 1
          false (13/10)).1 =
        .error (.valueError "Template does not define any photo boxes.")) :=
  process_job_zero_boxes ⟨fun _ => true⟩ { photos := .list ["p.png"] } {} "output" true false 1
    false (13/10) (by decide) rfl

/-! ### C8 -/

/-- C8: a dry run returns exactly the same outcome (in particular the same
output path) as a normal run on the same inputs, with the same compositing
events and logs, and writes nothing; a normal run performs exactly one save
of the computed path when it succeeds, and none when it fails. -/
theorem process_job_dry_run (fs : FS) (job : Job) (template_cfg : TemplateCfg)
    (output_dir : String) (auto_color : Bool) (font_scale : ℚ)
    (remove_bg_jpg : Bool) (photo_scale : ℚ) :
    (process_job fs job template_cfg output_dir auto_color true font_scale
        remove_bg_jpg photo_scale).1 =
      (process_job fs job template_cfg output_dir auto_color false font_scale
          remove_bg_jpg photo_scale).1 ∧
    (process_job fs job template_cfg output_dir auto_color true font_scale
        remove_bg_jpg photo_scale).2.saved = [] ∧
    (process_job fs job template_cfg output_dir auto_color true font_scale
        remove_bg_jpg photo_scale).2.events =
      (process_job fs job template_cfg output_dir auto_color false font_scale
          remove_bg_jpg photo_scale).2.events ∧
    (process_job fs job template_cfg output_dir auto_color true font_scale
        remove_bg_jpg photo_scale).2.logs =
      (process_job fs job template_cfg output_dir auto_color false font_scale
          remove_bg_jpg photo_scale).2.logs ∧
    (∀ p, (process_job fs job template_cfg output_dir auto_color false font_scale
        remove_bg_jpg photo_scale).1 = .ok p →
      (process_job fs job template_cfg output_dir auto_color false font_scale
          remove_bg_jpg photo_scale).2.saved = [p]) ∧
    (∀ e, (process_job fs job template_cfg output_dir auto_color false font_scale
        remove_bg_jpg photo_scale).1 = .error e →
      (process_job fs job template_cfg output_dir auto_color false font_scale
          remove_bg_jpg photo_scale).2.saved = []) := by
  cases hr : (processBody fs job template_cfg output_dir font_scale remove_bg_jpg
      photo_scale).result with
  | ok p =>
    have hdry : process_job fs job template_cfg output_dir auto_color true font_scale
        remove_bg_jpg photo_scale =
        (.ok p, ⟨(processBody fs job template_cfg output_dir font_scale remove_bg_jpg
            photo_scale).events,
          (processBody fs job template_cfg output_dir font_scale remove_bg_jpg
            photo_scale).logs, []⟩) := by
      simp [process_job, hr]
    have hwet : process_job fs job template_cfg output_dir auto_color false font_scale
        remove_bg_jpg photo_scale =
        (.ok p, ⟨(processBody fs job template_cfg output_dir font_scale remove_bg_jpg
            photo_scale).events,
          (processBody fs job template_cfg output_dir font_scale remove_bg_jpg
            photo_scale).logs, [p]⟩) := by
      simp [process_job, hr]
    refine ⟨by rw [hdry, hwet], by rw [hdry], by rw [hdry, hwet], by rw [hdry, hwet], ?_, ?_⟩
    · intro p' hp'
      rw [hwet] at hp'
      simp only [Except.ok.injEq] at hp'
      subst hp'
      rw [hwet]
    · intro e he
      rw [hwet] at he
      simp at he
  | error e =>
    have hdry : process_job fs job template_cfg output_dir auto_color true font_scale
        remove_bg_jpg photo_scale =
        (.error e, ⟨(processBody fs job template_cfg output_dir font_scale remove_bg_jpg
            photo_scale).events,
          (processBody fs job template_cfg output_dir font_scale remove_bg_jpg
            photo_scale).logs, []⟩) := by
      simp [process_job, hr]
    have hwet : process_job fs job template_cfg output_dir auto_color false font_scale
        remove_bg_jpg photo_scale =
        (.error e, ⟨(processBody fs job template_cfg output_dir font_scale remove_bg_jpg
            photo_scale).events,
          (processBody fs job template_cfg output_dir font_scale remove_bg_jpg
            photo_scale).logs, []⟩) := by
      simp [process_job, hr]
    refine ⟨by rw [hdry, hwet], by rw [hdry], by rw [hdry, hwet], by rw [hdry, hwet], ?_, ?_⟩
    · intro p hp
      rw [hwet] at hp
      simp at hp
    · intro e' he
      rw [hwet]

/-- Witness for C8 on a concrete template and job. -/
theorem process_job_dry_run_witness :
    (process_job ⟨fun _ => true⟩ {} {} "output" true true 1 false (13/10)).1 =
      (process_job ⟨fun _ => true⟩ {} {} "output" true false 1 false (13/10)).1 ∧
    (process_job ⟨fun _ => true⟩ {} {} "output" true true 1 false (13/10)).2.saved = [] ∧
    (process_job ⟨fun _ => true⟩ {} {} "output" true false 1 false
        (13/10)).2.saved = ["output/card_0png.png"] :=
  have h := process_job_dry_run ⟨fun _ => true⟩ {} {} "output" true 1 false (13/10)
  ⟨h.1, h.2.1, h.2.2.2.2.1 "output/card_0png.png" (by decide)⟩

theorem parse_photo_boxes_length (l : List RawPhotoBox) :
    (parse_photo_boxes l).length = l.length := by
  simp [parse_photo_boxes]

/-! ### C3 -/

/-- Counterexample for C3 as frozen: with no explicit output name, no
recipient and no photos, the claim's stem would be
`sanitize_filename "card_0" = "card_0"` and thus the path
`output/card_0.png`, but `process_job` returns `output/card_0png.png`: the
default name embeds `.png` before sanitization, which strips the dot. -/
theorem process_job_default_name_cex :
    (process_job ⟨fun _ => true⟩ {} {} "output" true true 1 false (13/10)).1 =
      .ok "output/card_0png.png" ∧
    sanitize_filename "card_0" = "card_0" ∧
    (process_job ⟨fun _ => true⟩ {} {} "output" true true 1 false (13/10)).1 ≠
      .ok ("output" ++ "/" ++ sanitize_filename "card_0" ++ ".png") := by
  decide

/-- C3 (amended): the returned path is
`output_dir / (sanitize_filename out_name ++ ".png")`, where `out_name` is
the explicit `output_name` when that is a non-empty string, and otherwise
the default `f"{recipient_name or 'card'}_{last_index}.png"` — the default
embeds `.png` before sanitization, so its sanitized stem ends in `png` with
the dot stripped.  `last_index` is `min(n, k) - 1` when the photo loop ran
at all and 0 otherwise.  The sanitized stem contains no dot, so the path
ends in `.png` exactly once. -/
theorem process_job_output_path (fs : FS) (job : Job) (template_cfg : TemplateCfg)
    (output_dir : String) (auto_color dry_run : Bool) (font_scale : ℚ)
    (remove_bg_jpg : Bool) (photo_scale : ℚ) (p : String)
    (h : (process_job fs job template_cfg output_dir auto_color dry_run font_scale
        remove_bg_jpg photo_scale).1 = .ok p) :
    p = output_dir ++ "/" ++
        sanitize_filename (match job.output_name with
          | some s =>
            if s = "" then
              defaultOutName (job.recipient_name.getD "")
                (lastIndexVal (resolvePhotos job.photos).length
                  template_cfg.photo_boxes.length)
            else s
          | none =>
            defaultOutName (job.recipient_name.getD "")
              (lastIndexVal (resolvePhotos job.photos).length
                template_cfg.photo_boxes.length)) ++ ".png" ∧
    '.' ∉ (sanitize_filename (match job.output_name with
          | some s =>
            if s = "" then
              defaultOutName (job.recipient_name.getD "")
                (lastIndexVal (resolvePhotos job.photos).length
                  template_cfg.photo_boxes.length)
            else s
          | none =>
            defaultOutName (job.recipient_name.getD "")
              (lastIndexVal (resolvePhotos job.photos).length
                template_cfg.photo_boxes.length))).data := by
  refine ⟨?_, sanitize_no_dot _⟩
  cases hhex : hex_to_rgb (.str (template_cfg.canvas.background_color.getD DEFAULT_BG_COLOR)) with
  | error e =>
    have hbody := processBody_hex_error fs job template_cfg output_dir font_scale
      remove_bg_jpg photo_scale e hhex
    rw [show (process_job fs job template_cfg output_dir auto_color dry_run font_scale
        remove_bg_jpg photo_scale).1 = .error e by simp [process_job, hbody]] at h
    cases h
  | ok rgb =>
    by_cases hcond : resolvePhotos job.photos ≠ [] ∧
        parse_photo_boxes template_cfg.photo_boxes = []
    · have hb : template_cfg.photo_boxes = [] := by
        have := hcond.2
        rwa [parse_photo_boxes, List.map_eq_nil_iff] at this
      have hbody := processBody_zero_boxes fs job template_cfg output_dir font_scale
        remove_bg_jpg photo_scale rgb hhex hcond.1 hb
      rw [show (process_job fs job template_cfg output_dir auto_color dry_run font_scale
          remove_bg_jpg photo_scale).1 =
          .error (.valueError "Template does not define any photo boxes.") by
        simp [process_job, hbody]] at h
      cases h
    · have hbody := processBody_run fs job template_cfg output_dir font_scale
        remove_bg_jpg photo_scale rgb hhex hcond
      cases htext : (textLoop (substitutionsOf job)
          (parse_text_blocks (scaledCopy template_cfg font_scale).text_blocks)).2 with
      | some e =>
        rw [show (process_job fs job template_cfg output_dir auto_color dry_run font_scale
            remove_bg_jpg photo_scale).1 = .error e by
          simp only [process_job, hbody]
          simp [htext]] at h
        cases h
      | none =>
        rw [show (process_job fs job template_cfg output_dir auto_color dry_run font_scale
            remove_bg_jpg photo_scale).1 =
            .ok (output_dir ++ "/" ++
              sanitize_filename (match job.output_name with
                | some s =>
                  if s = "" then
                    defaultOutName (job.recipient_name.getD "")
                      (lastIndexVal (resolvePhotos job.photos).length
                        (parse_photo_boxes template_cfg.photo_boxes).length)
                  else s
                | none =>
                  defaultOutName (job.recipient_name.getD "")
                    (lastIndexVal (resolvePhotos job.photos).length
                      (parse_photo_boxes template_cfg.photo_boxes).length)) ++ ".png") by
          simp only [process_job, hbody]
          simp [htext]] at h
        rw [parse_photo_boxes_length] at h
        exact ((Except.ok.injEq _ _).mp h).symm

/-- Witness for C3 (amended) with an explicit output name containing
punctuation and spaces. -/
theorem process_job_output_path_witness :
    "output/My_Card_1.png" = "output" ++ "/" ++ sanitize_filename "My Card! #1" ++ ".png" ∧
    '.' ∉ (sanitize_filename "My Card! #1").data := by
  have h := process_job_output_path ⟨fun _ => true⟩ { output_name := some "My Card! #1" } {}
    "output" true true 1 false (13/10) "output/My_Card_1.png" (by decide)
  exact ⟨h.1, h.2⟩

/-- The overlay events of one pass are exactly the placement-filtered,
existing overlays in template order. -/
theorem overlayPass_events (fs : FS) (ovs : List Overlay) (phase : String) :
    (overlayPass fs ovs phase).1 =
      (ovs.filter fun ov => decide (ov.placement = phase) && fs.present ov.path).map
        Event.overlay := by
  induction ovs with
  | nil => rfl
  | cons ov rest ih =>
    simp only [overlayPass, List.filter_cons]
    by_cases hp : ov.placement = phase
    · by_cases hpr : fs.present ov.path
      · simp [hp, hpr, ih]
      · simp [hp, hpr, ih]
    · simp [hp, ih]

/-- Text sizes drawn onto the canvas, in order. -/
def textSizesOf (es : List Event) : List Int :=
  es.filterMap fun e =>
    match e with
    | .text _ _ b => some b.size
    | _ => none

theorem filterMap_const_none {α β : Type} (l : List α) :
    (l.filterMap fun _ => (none : Option β)) = [] := by
  induction l with
  | nil => rfl
  | cons a l ih => simp [List.filterMap_cons, ih]

theorem textSizesOf_append (a b : List Event) :
    textSizesOf (a ++ b) = textSizesOf a ++ textSizesOf b :=
  List.filterMap_append a b _

theorem textSizesOf_map_overlay (l : List Overlay) :
    textSizesOf (l.map Event.overlay) = [] := by
  induction l with
  | nil => rfl
  | cons a l ih =>
    rw [List.map_cons]
    rw [show textSizesOf (Event.overlay a :: l.map Event.overlay) =
        textSizesOf (l.map Event.overlay) from rfl]
    exact ih

theorem textSizesOf_overlayPass (fs : FS) (ovs : List Overlay) (phase : String) :
    textSizesOf (overlayPass fs ovs phase).1 = [] := by
  rw [overlayPass_events]
  exact textSizesOf_map_overlay _

theorem textSizesOf_photoLoop (fs : FS) (pairs : List (String × PhotoBox)) (idx : Nat)
    (rbj : Bool) (ps : ℚ) : textSizesOf (photoLoop fs pairs idx rbj ps).1 = [] := by
  induction pairs generalizing idx with
  | nil => rfl
  | cons pb rest ih =>
    rcases pb with ⟨p, box⟩
    simp only [photoLoop]
    by_cases hpr : fs.present p
    · simp only [hpr, if_pos]
      rw [show textSizesOf (.photo idx p box (rbj && isJpgSuffix p) ps ::
          (photoLoop fs rest (idx + 1) rbj ps).1) =
        textSizesOf (photoLoop fs rest (idx + 1) rbj ps).1 from rfl]
      exact ih (idx + 1)
    · simp only [hpr, if_neg, Bool.false_eq_true, if_false]
      exact ih (idx + 1)

theorem textLoop_sizes (subs : List (String × String)) :
    ∀ blocks : List (String × TextBlock), (textLoop subs blocks).2 = none →
      textSizesOf (textLoop subs blocks).1 = blocks.map fun kv => kv.2.size := by
  intro blocks
  induction blocks with
  | nil => intro _; rfl
  | cons kv rest ih =>
    rcases kv with ⟨name, b⟩
    intro hnone
    cases hr : renderText subs b with
    | error e =>
      rw [show textLoop subs ((name, b) :: rest) = ([], some e) by
        simp [textLoop, hr]] at hnone
      cases hnone
    | ok rendered =>
      have heq : textLoop subs ((name, b) :: rest) =
          (.text name rendered b :: (textLoop subs rest).1, (textLoop subs rest).2) := by
        simp [textLoop, hr]
      rw [heq] at hnone ⊢
      rw [show textSizesOf (.text name rendered b :: (textLoop subs rest).1, (textLoop subs rest).2).1 =
          b.size :: textSizesOf (textLoop subs rest).1 from rfl]
      rw [ih hnone]
      rfl

/-- Per-job text size actually rendered: the raw template size scaled by
`font_scale` when the block has a `size` key and the scale is not 1
(minimum 1 after round-half-to-even), the raw or default size otherwise. -/
def renderedSize (f : ℚ) (rawSize : Option Int) : Int :=
  (if f ≠ 1 then rawSize.map fun s => max 1 (pyRound ((s : ℚ) * f)) else rawSize).getD 48

theorem parse_scaled_sizes (cfg : TemplateCfg) (f : ℚ) :
    (parse_text_blocks (scaledCopy cfg f).text_blocks).map (fun kv => kv.2.size) =
      cfg.text_blocks.map fun kv => renderedSize f kv.2.size := by
  by_cases hf : f ≠ 1
  · rw [scaledCopy, if_pos hf]
    simp only [parse_text_blocks, List.map_map]
    refine List.map_congr_left fun kv _ => ?_
    simp [renderedSize, hf]
  · rw [scaledCopy, if_neg hf]
    simp only [parse_text_blocks, List.map_map]
    refine List.map_congr_left fun kv _ => ?_
    simp [renderedSize, hf]

/-- On a successful run, the events decompose into the five phases in
order, and the text loop completed without a substitution error. -/
theorem process_job_success_decomp (fs : FS) (job : Job) (template_cfg : TemplateCfg)
    (output_dir : String) (auto_color dry_run : Bool) (font_scale : ℚ)
    (remove_bg_jpg : Bool) (photo_scale : ℚ) (p : String)
    (h : (process_job fs job template_cfg output_dir auto_color dry_run font_scale
        remove_bg_jpg photo_scale).1 = .ok p) :
    (process_job fs job template_cfg output_dir auto_color dry_run font_scale
        remove_bg_jpg photo_scale).2.events =
      (overlayPass fs (parse_overlays template_cfg.overlays) "before_photos").1 ++
      (photoLoop fs (List.zip ((resolvePhotos job.photos).take
          (parse_photo_boxes template_cfg.photo_boxes).length)
          (parse_photo_boxes template_cfg.photo_boxes)) 0 remove_bg_jpg photo_scale).1 ++
      (overlayPass fs (parse_overlays template_cfg.overlays) "after_photos").1 ++
      (textLoop (substitutionsOf job)
          (parse_text_blocks (scaledCopy template_cfg font_scale).text_blocks)).1 ++
      (overlayPass fs (parse_overlays template_cfg.overlays) "top").1 ∧
    (textLoop (substitutionsOf job)
        (parse_text_blocks (scaledCopy template_cfg font_scale).text_blocks)).2 = none := by
  cases hhex : hex_to_rgb (.str (template_cfg.canvas.background_color.getD DEFAULT_BG_COLOR)) with
  | error e =>
    have hbody := processBody_hex_error fs job template_cfg output_dir font_scale
      remove_bg_jpg photo_scale e hhex
    rw [show (process_job fs job template_cfg output_dir auto_color dry_run font_scale
        remove_bg_jpg photo_scale).1 = .error e by simp [process_job, hbody]] at h
    cases h
  | ok rgb =>
    by_cases hcond : resolvePhotos job.photos ≠ [] ∧
        parse_photo_boxes template_cfg.photo_boxes = []
    · have hb : template_cfg.photo_boxes = [] := by
        have := hcond.2
        rwa [parse_photo_boxes, List.map_eq_nil_iff] at this
      have hbody := processBody_zero_boxes fs job template_cfg output_dir font_scale
        remove_bg_jpg photo_scale rgb hhex hcond.1 hb
      rw [show (process_job fs job template_cfg output_dir auto_color dry_run font_scale
          remove_bg_jpg photo_scale).1 =
          .error (.valueError "Template does not define any photo boxes.") by
        simp [process_job, hbody]] at h
      cases h
    · have hbody := processBody_run fs job template_cfg output_dir font_scale
        remove_bg_jpg photo_scale rgb hhex hcond
      cases htext : (textLoop (substitutionsOf job)
          (parse_text_blocks (scaledCopy template_cfg font_scale).text_blocks)).2 with
      | some e =>
        rw [show (process_job fs job template_cfg output_dir auto_color dry_run font_scale
            remove_bg_jpg photo_scale).1 = .error e by
          simp only [process_job, hbody]
          simp [htext]] at h
        cases h
      | none =>
        refine ⟨?_, rfl⟩
        simp only [process_job, hbody]
        simp [htext]

/-- Text sizes rendered by one successful run derive from the shared
template's own raw sizes under this run's `font_scale` alone. -/
theorem process_job_text_sizes (fs : FS) (job : Job) (template_cfg : TemplateCfg)
    (output_dir : String) (auto_color dry_run : Bool) (f : ℚ)
    (remove_bg_jpg : Bool) (photo_scale : ℚ) (p : String)
    (h : (process_job fs job template_cfg output_dir auto_color dry_run f
        remove_bg_jpg photo_scale).1 = .ok p) :
    textSizesOf (process_job fs job template_cfg output_dir auto_color dry_run f
        remove_bg_jpg photo_scale).2.events =
      template_cfg.text_blocks.map fun kv => renderedSize f kv.2.size := by
  obtain ⟨hev, htext⟩ := process_job_success_decomp fs job template_cfg output_dir
    auto_color dry_run f remove_bg_jpg photo_scale p h
  rw [hev]
  rw [textSizesOf_append, textSizesOf_append, textSizesOf_append, textSizesOf_append]
  rw [textSizesOf_overlayPass, textSizesOf_overlayPass, textSizesOf_overlayPass,
    textSizesOf_photoLoop]
  rw [textLoop_sizes _ _ htext, parse_scaled_sizes]
  simp

/-! ### C7 -/

/-- C7: per-job font scaling is applied only to the per-job deep copy of the
template: in this translation `process_job` reads the shared `template_cfg`
value and builds its scaled copy locally (`scaledCopy`), mirroring that the
source writes sizes only into `copy.deepcopy(template_cfg)`; consequently
any two successful runs against the same `template_cfg` each render text
sizes computed from the template's original sizes under their own
`font_scale` (block size times scale, rounded, minimum 1 — untouched when
the scale is 1 or the block has no size key), never from the other run's
scaled copy. -/
theorem process_job_scale_isolation (fs : FS) (job : Job) (template_cfg : TemplateCfg)
    (output_dir : String) (auto_color dry_run : Bool) (f1 f2 : ℚ)
    (remove_bg_jpg : Bool) (photo_scale : ℚ) (p1 p2 : String)
    (h1 : (process_job fs job template_cfg output_dir auto_color dry_run f1
        remove_bg_jpg photo_scale).1 = .ok p1)
    (h2 : (process_job fs job template_cfg output_dir auto_color dry_run f2
        remove_bg_jpg photo_scale).1 = .ok p2) :
    textSizesOf (process_job fs job template_cfg output_dir auto_color dry_run f1
        remove_bg_jpg photo_scale).2.events =
      template_cfg.text_blocks.map (fun kv => renderedSize f1 kv.2.size) ∧
    textSizesOf (process_job fs job template_cfg output_dir auto_color dry_run f2
        remove_bg_jpg photo_scale).2.events =
      template_cfg.text_blocks.map (fun kv => renderedSize f2 kv.2.size) :=
  ⟨process_job_text_sizes fs job template_cfg output_dir auto_color dry_run f1
      remove_bg_jpg photo_scale p1 h1,
   process_job_text_sizes fs job template_cfg output_dir auto_color dry_run f2
      remove_bg_jpg photo_scale p2 h2⟩

/-- Template used by the C7 witness: one text block of size 40. -/
def cfgC7 : TemplateCfg :=
  { text_blocks := [("greet", { text := "Hi {recipient_name}", x := 1, y := 2, size := some 40 })] }

/-- Witness for C7: two runs on the same template with scales 1 and 3/2
render sizes 40 and 60 respectively, both computed from the shared
template's original size. -/
theorem process_job_scale_isolation_witness :
    (textSizesOf (process_job ⟨fun _ => true⟩ {} cfgC7 "output" true true 1 false
          (13/10)).2.events =
        cfgC7.text_blocks.map (fun kv => renderedSize 1 kv.2.size) ∧
      textSizesOf (process_job ⟨fun _ => true⟩ {} cfgC7 "output" true true (mkRat 3 2) false
          (13/10)).2.events =
        cfgC7.text_blocks.map (fun kv => renderedSize (mkRat 3 2) kv.2.size)) ∧
    cfgC7.text_blocks.map (fun kv => renderedSize 1 kv.2.size) = [40] ∧
    cfgC7.text_blocks.map (fun kv => renderedSize (mkRat 3 2) kv.2.size) = [60] := by
  have h32 : (mkRat 3 2 : ℚ) = 3 / 2 := by
    rw [Rat.mkRat_eq_divInt, Rat.divInt_eq_div]
    norm_num
  refine ⟨process_job_scale_isolation ⟨fun _ => true⟩ {} cfgC7 "output" true true 1
      (mkRat 3 2) false (13/10) "output/card_0png.png" "output/card_0png.png"
      (by decide) (by decide), by decide, ?_⟩
  show [renderedSize (mkRat 3 2) (some 40)] = [60]
  have hne : (mkRat 3 2 : ℚ) ≠ 1 := by
    rw [h32]
    norm_num
  rw [show renderedSize (mkRat 3 2) (some 40) =
      max 1 (pyRound (((40 : Int) : ℚ) * mkRat 3 2)) by
    rw [renderedSize, if_pos hne]
    rfl]
  have hmul : ((40 : Int) : ℚ) * mkRat 3 2 = ((60 : ℤ) : ℚ) := by
    rw [h32]
    norm_num
  rw [hmul]
  have hround : pyRound ((60 : ℤ) : ℚ) = 60 := by
    rw [pyRound]
    rw [Int.floor_intCast]
    norm_num
  rw [hround]
  norm_num

/-! ### C4 -/

/-- C4: a successful `process_job` composites onto the canvas in the fixed
phase order — overlays tagged `before_photos`, then the photos, then
overlays tagged `after_photos`, then the text blocks, then overlays tagged
`top` — where each overlay phase is the placement-filtered sub-list of the
template's overlay list (in template order), regardless of where each
overlay sits in that list. -/
theorem process_job_phase_order (fs : FS) (job : Job) (template_cfg : TemplateCfg)
    (output_dir : String) (auto_color dry_run : Bool) (font_scale : ℚ)
    (remove_bg_jpg : Bool) (photo_scale : ℚ) (p : String)
    (h : (process_job fs job template_cfg output_dir auto_color dry_run font_scale
        remove_bg_jpg photo_scale).1 = .ok p) :
    (process_job fs job template_cfg output_dir auto_color dry_run font_scale
        remove_bg_jpg photo_scale).2.events =
      ((parse_overlays template_cfg.overlays).filter fun ov =>
          decide (ov.placement = "before_photos") && fs.present ov.path).map Event.overlay ++
      (photoLoop fs (List.zip ((resolvePhotos job.photos).take
          (parse_photo_boxes template_cfg.photo_boxes).length)
          (parse_photo_boxes template_cfg.photo_boxes)) 0 remove_bg_jpg photo_scale).1 ++
      ((parse_overlays template_cfg.overlays).filter fun ov =>
          decide (ov.placement = "after_photos") && fs.present ov.path).map Event.overlay ++
      (textLoop (substitutionsOf job)
          (parse_text_blocks (scaledCopy template_cfg font_scale).text_blocks)).1 ++
      ((parse_overlays template_cfg.overlays).filter fun ov =>
          decide (ov.placement = "top") && fs.present ov.path).map Event.overlay := by
  have hd := process_job_success_decomp fs job template_cfg output_dir auto_color dry_run
    font_scale remove_bg_jpg photo_scale p h
  rw [hd.1, overlayPass_events, overlayPass_events, overlayPass_events]

/-- Template used by the C4 witness: overlays listed in scrambled placement
order (`top`, then `after_photos`, then `before_photos`). -/
def cfgC4 : TemplateCfg :=
  { photo_boxes := [{ x := 0, y := 0, width := 10, height := 10 }],
    text_blocks := [("greet", { text := "Hi {recipient_name}", x := 1, y := 2 })],
    overlays :=
      [{ path := "t.png", x := 0, y := 0, placement := some "top" },
       { path := "a.png", x := 0, y := 0, placement := some "after_photos" },
       { path := "b.png", x := 0, y := 0, placement := some "before_photos" }] }

/-- Job used by the C4 witness. -/
def jobC4 : Job :=
  { photos := .list ["p.jpg"], recipient_name := some "Ana" }

/-- Witness for C4 on a template whose overlay list order disagrees with the
phase order. -/
theorem process_job_phase_order_witness :
    (process_job ⟨fun _ => true⟩ jobC4 cfgC4 "output" true true 1 false (13/10)).2.events =
      ((parse_overlays cfgC4.overlays).filter fun ov =>
          decide (ov.placement = "before_photos") && (⟨fun _ => true⟩ : FS).present ov.path).map
        Event.overlay ++
      (photoLoop ⟨fun _ => true⟩ (List.zip ((resolvePhotos jobC4.photos).take
          (parse_photo_boxes cfgC4.photo_boxes).length)
          (parse_photo_boxes cfgC4.photo_boxes)) 0 false (13/10)).1 ++
      ((parse_overlays cfgC4.overlays).filter fun ov =>
          decide (ov.placement = "after_photos") && (⟨fun _ => true⟩ : FS).present ov.path).map
        Event.overlay ++
      (textLoop (substitutionsOf jobC4)
          (parse_text_blocks (scaledCopy cfgC4 1).text_blocks)).1 ++
      ((parse_overlays cfgC4.overlays).filter fun ov =>
          decide (ov.placement = "top") && (⟨fun _ => true⟩ : FS).present ov.path).map
        Event.overlay :=
  process_job_phase_order ⟨fun _ => true⟩ jobC4 cfgC4 "output" true true 1 false (13/10)
    "output/Ana_0png.png" (by decide)

/-! ### Helper lemmas for C9 -/

theorem process_job_fst (fs : FS) (job : Job) (cfg : TemplateCfg) (out : String)
    (ac dry : Bool) (f : ℚ) (rbj : Bool) (ps : ℚ) :
    (process_job fs job cfg out ac dry f rbj ps).1 =
      (processBody fs job cfg out f rbj ps).result := by
  cases hr : (processBody fs job cfg out f rbj ps).result <;> simp [process_job, hr]

theorem process_job_events_eq (fs : FS) (job : Job) (cfg : TemplateCfg) (out : String)
    (ac dry : Bool) (f : ℚ) (rbj : Bool) (ps : ℚ) :
    (process_job fs job cfg out ac dry f rbj ps).2.events =
      (processBody fs job cfg out f rbj ps).events := by
  cases hr : (processBody fs job cfg out f rbj ps).result <;> simp [process_job, hr]

theorem process_job_logs_eq (fs : FS) (job : Job) (cfg : TemplateCfg) (out : String)
    (ac dry : Bool) (f : ℚ) (rbj : Bool) (ps : ℚ) :
    (process_job fs job cfg out ac dry f rbj ps).2.logs =
      (processBody fs job cfg out f rbj ps).logs := by
  cases hr : (processBody fs job cfg out f rbj ps).result <;> simp [process_job, hr]

theorem process_job_saved_eq (fs : FS) (job : Job) (cfg : TemplateCfg) (out : String)
    (ac dry : Bool) (f : ℚ) (rbj : Bool) (ps : ℚ) :
    (process_job fs job cfg out ac dry f rbj ps).2.saved =
      (match (processBody fs job cfg out f rbj ps).result with
       | .ok p => if dry then [] else [p]
       | .error _ => []) := by
  cases hr : (processBody fs job cfg out f rbj ps).result <;> simp [process_job, hr]

/-- The photo-paste events of a trace, in order. -/
def photoEventsOf (es : List Event) : List Event :=
  es.filter fun e =>
    match e with
    | .photo _ _ _ _ _ => true
    | _ => false

theorem photoEventsOf_append (a b : List Event) :
    photoEventsOf (a ++ b) = photoEventsOf a ++ photoEventsOf b := by
  simp [photoEventsOf]

theorem photoEventsOf_map_overlay (l : List Overlay) :
    photoEventsOf (l.map Event.overlay) = [] := by
  induction l with
  | nil => rfl
  | cons a l ih =>
    rw [List.map_cons]
    rw [show photoEventsOf (Event.overlay a :: l.map Event.overlay) =
        photoEventsOf (l.map Event.overlay) from rfl]
    exact ih

theorem photoEventsOf_overlayPass (fs : FS) (ovs : List Overlay) (phase : String) :
    photoEventsOf (overlayPass fs ovs phase).1 = [] := by
  rw [overlayPass_events]
  exact photoEventsOf_map_overlay _

theorem photoEventsOf_textLoop (subs : List (String × String)) :
    ∀ blocks : List (String × TextBlock), photoEventsOf (textLoop subs blocks).1 = [] := by
  intro blocks
  induction blocks with
  | nil => rfl
  | cons kv rest ih =>
    rcases kv with ⟨name, b⟩
    cases hr : renderText subs b with
    | error e => simp [textLoop, hr, photoEventsOf]
    | ok rendered =>
      rw [show (textLoop subs ((name, b) :: rest)).1 =
          .text name rendered b :: (textLoop subs rest).1 by simp [textLoop, hr]]
      rw [show photoEventsOf (.text name rendered b :: (textLoop subs rest).1) =
          photoEventsOf (textLoop subs rest).1 from rfl]
      exact ih

theorem photoEventsOf_photoLoop (fs : FS) (pairs : List (String × PhotoBox)) (idx : Nat)
    (rbj : Bool) (ps : ℚ) :
    photoEventsOf (photoLoop fs pairs idx rbj ps).1 = (photoLoop fs pairs idx rbj ps).1 := by
  induction pairs generalizing idx with
  | nil => rfl
  | cons pb rest ih =>
    rcases pb with ⟨p, box⟩
    simp only [photoLoop]
    by_cases hpr : fs.present p
    · simp only [hpr, if_pos]
      rw [show photoEventsOf (.photo idx p box (rbj && isJpgSuffix p) ps ::
          (photoLoop fs rest (idx + 1) rbj ps).1) =
        .photo idx p box (rbj && isJpgSuffix p) ps ::
          photoEventsOf (photoLoop fs rest (idx + 1) rbj ps).1 from rfl]
      rw [ih (idx + 1)]
    · simp only [hpr, Bool.false_eq_true, if_false]
      exact ih (idx + 1)

/-- Core of C9 at the body level: against the same template, a job and its
truncation to the first `k` photos produce the same result and the same
compositing events; the full job additionally logs the excess warning, and
its photo events are exactly the loop over the first `k` photos. -/
theorem processBody_excess (fs : FS) (job : Job) (template_cfg : TemplateCfg) (out : String)
    (f : ℚ) (rbj : Bool) (ps : ℚ)
    (hk : template_cfg.photo_boxes ≠ [])
    (hn : (resolvePhotos job.photos).length > template_cfg.photo_boxes.length) :
    (processBody fs job template_cfg out f rbj ps).result =
      (processBody fs { job with photos := .list ((resolvePhotos job.photos).take
          template_cfg.photo_boxes.length) } template_cfg out f rbj ps).result ∧
    (processBody fs job template_cfg out f rbj ps).events =
      (processBody fs { job with photos := .list ((resolvePhotos job.photos).take
          template_cfg.photo_boxes.length) } template_cfg out f rbj ps).events ∧
    (∀ rgb : Int × Int × Int,
      hex_to_rgb (.str (template_cfg.canvas.background_color.getD DEFAULT_BG_COLOR)) = .ok rgb →
      excessWarningMsg (resolvePhotos job.photos).length template_cfg.photo_boxes.length ∈
        (processBody fs job template_cfg out f rbj ps).logs ∧
      photoEventsOf (processBody fs job template_cfg out f rbj ps).events =
        (photoLoop fs (List.zip ((resolvePhotos job.photos).take
            (parse_photo_boxes template_cfg.photo_boxes).length)
            (parse_photo_boxes template_cfg.photo_boxes)) 0 rbj ps).1) := by
  have hPBlen : (parse_photo_boxes template_cfg.photo_boxes).length =
      template_cfg.photo_boxes.length := parse_photo_boxes_length _
  have hPBne : parse_photo_boxes template_cfg.photo_boxes ≠ [] := by
    intro h0
    exact hk (by rwa [parse_photo_boxes, List.map_eq_nil_iff] at h0)
  cases hhex : hex_to_rgb (.str (template_cfg.canvas.background_color.getD DEFAULT_BG_COLOR)) with
  | error e =>
    have hbA := processBody_hex_error fs job template_cfg out f rbj ps e hhex
    have hbB := processBody_hex_error fs
      { job with photos := .list ((resolvePhotos job.photos).take
          template_cfg.photo_boxes.length) } template_cfg out f rbj ps e hhex
    rw [hbA, hbB]
    exact ⟨rfl, rfl, fun rgb hok => by simp at hok⟩
  | ok rgb =>
    have hcondA : ¬(resolvePhotos job.photos ≠ [] ∧
        parse_photo_boxes template_cfg.photo_boxes = []) := fun h => hPBne h.2
    have hcondB : ¬(resolvePhotos ({ job with photos := .list ((resolvePhotos job.photos).take
        template_cfg.photo_boxes.length) } : Job).photos ≠ [] ∧
        parse_photo_boxes template_cfg.photo_boxes = []) := fun h => hPBne h.2
    have hbA := processBody_run fs job template_cfg out f rbj ps rgb hhex hcondA
    have hbB := processBody_run fs
      { job with photos := .list ((resolvePhotos job.photos).take
          template_cfg.photo_boxes.length) } template_cfg out f rbj ps rgb hhex hcondB
    rw [hbA, hbB]
    dsimp only
    rw [show resolvePhotos (PhotosField.list ((resolvePhotos job.photos).take
        template_cfg.photo_boxes.length)) =
      (resolvePhotos job.photos).take template_cfg.photo_boxes.length from rfl]
    rw [show substitutionsOf { job with photos := PhotosField.list ((resolvePhotos
        job.photos).take template_cfg.photo_boxes.length) } = substitutionsOf job from rfl]
    have htake : ((resolvePhotos job.photos).take template_cfg.photo_boxes.length).take
        (parse_photo_boxes template_cfg.photo_boxes).length =
        (resolvePhotos job.photos).take (parse_photo_boxes template_cfg.photo_boxes).length := by
      rw [hPBlen, List.take_take, min_self]
    rw [htake]
    have hlast : lastIndexVal ((resolvePhotos job.photos).take
        template_cfg.photo_boxes.length).length
        (parse_photo_boxes template_cfg.photo_boxes).length =
        lastIndexVal (resolvePhotos job.photos).length
          (parse_photo_boxes template_cfg.photo_boxes).length := by
      rw [hPBlen, List.length_take, lastIndexVal, lastIndexVal]
      have h1 : min (min template_cfg.photo_boxes.length
          (resolvePhotos job.photos).length) template_cfg.photo_boxes.length =
          template_cfg.photo_boxes.length := by omega
      have h2 : min (resolvePhotos job.photos).length template_cfg.photo_boxes.length =
          template_cfg.photo_boxes.length := by omega
      rw [h1, h2]
    rw [hlast]
    have hwarnA : ((resolvePhotos job.photos).length >
        (parse_photo_boxes template_cfg.photo_boxes).length) := by
      rw [hPBlen]
      exact hn
    have hwarnB : ¬(((resolvePhotos job.photos).take
        template_cfg.photo_boxes.length).length >
        (parse_photo_boxes template_cfg.photo_boxes).length) := by
      rw [hPBlen, List.length_take]
      omega
    rw [if_pos hwarnA, if_neg hwarnB]
    cases htext : (textLoop (substitutionsOf job)
        (parse_text_blocks (scaledCopy template_cfg f).text_blocks)).2 with
    | some e =>
      simp only [htext]
      refine ⟨trivial, trivial, fun rgb' _ => ⟨?_, ?_⟩⟩
      · rw [hPBlen]
        simp [List.mem_append]
      · rw [photoEventsOf_append, photoEventsOf_append, photoEventsOf_append]
        rw [photoEventsOf_overlayPass, photoEventsOf_overlayPass, photoEventsOf_textLoop,
          photoEventsOf_photoLoop]
        simp
    | none =>
      simp only [htext]
      refine ⟨trivial, trivial, fun rgb' _ => ⟨?_, ?_⟩⟩
      · rw [hPBlen]
        simp [List.mem_append]
      · rw [photoEventsOf_append, photoEventsOf_append, photoEventsOf_append,
          photoEventsOf_append]
        rw [photoEventsOf_overlayPass, photoEventsOf_overlayPass, photoEventsOf_overlayPass,
          photoEventsOf_textLoop, photoEventsOf_photoLoop]
        simp

/-! ### C9 -/

/-- Counterexample for C9 as frozen: the claim quantifies over all `n > k`,
which includes `k = 0`; with one photo and zero boxes `process_job` raises
the zero-box `ValueError` instead of logging a warning and raising no
error. -/
theorem process_job_excess_cex :
    (resolvePhotos (PhotosField.list ["p.png"])).length >
      ({} : TemplateCfg).photo_boxes.length ∧
    (process_job ⟨fun _ => true⟩ { photos := .list ["p.png"] } {} "output" true true 1
        false (13/10)).1 =
      .error (.valueError "Template does not define any photo boxes.") := by
  decide

/-- C9 (amended): for a template with at least one photo box (`k ≥ 1`) and a
job with `n > k` photos, the run's outcome, compositing events and file
writes are identical to those of the same job truncated to its first `k`
photos — the excess photos have no effect and cause no error of their own —
and, whenever the run gets past background-colour parsing (where it would
fail for any photo list), the excess warning is logged and the photo events
are exactly the positional loop of `photos[0..k-1]` over the `k` boxes. -/
theorem process_job_excess_photos (fs : FS) (job : Job) (template_cfg : TemplateCfg)
    (output_dir : String) (auto_color dry_run : Bool) (font_scale : ℚ)
    (remove_bg_jpg : Bool) (photo_scale : ℚ)
    (hk : template_cfg.photo_boxes ≠ [])
    (hn : (resolvePhotos job.photos).length > template_cfg.photo_boxes.length) :
    (process_job fs job template_cfg output_dir auto_color dry_run font_scale
        remove_bg_jpg photo_scale).1 =
      (process_job fs { job with photos := .list ((resolvePhotos job.photos).take
          template_cfg.photo_boxes.length) } template_cfg output_dir auto_color dry_run
          font_scale remove_bg_jpg photo_scale).1 ∧
    (process_job fs job template_cfg output_dir auto_color dry_run font_scale
        remove_bg_jpg photo_scale).2.events =
      (process_job fs { job with photos := .list ((resolvePhotos job.photos).take
          template_cfg.photo_boxes.length) } template_cfg output_dir auto_color dry_run
          font_scale remove_bg_jpg photo_scale).2.events ∧
    (process_job fs job template_cfg output_dir auto_color dry_run font_scale
        remove_bg_jpg photo_scale).2.saved =
      (process_job fs { job with photos := .list ((resolvePhotos job.photos).take
          template_cfg.photo_boxes.length) } template_cfg output_dir auto_color dry_run
          font_scale remove_bg_jpg photo_scale).2.saved ∧
    (∀ rgb : Int × Int × Int,
      hex_to_rgb (.str (template_cfg.canvas.background_color.getD DEFAULT_BG_COLOR)) = .ok rgb →
      excessWarningMsg (resolvePhotos job.photos).length template_cfg.photo_boxes.length ∈
        (process_job fs job template_cfg output_dir auto_color dry_run font_scale
            remove_bg_jpg photo_scale).2.logs ∧
      photoEventsOf (process_job fs job template_cfg output_dir auto_color dry_run font_scale
          remove_bg_jpg photo_scale).2.events =
        (photoLoop fs (List.zip ((resolvePhotos job.photos).take
            (parse_photo_boxes template_cfg.photo_boxes).length)
            (parse_photo_boxes template_cfg.photo_boxes)) 0 remove_bg_jpg photo_scale).1) := by
  obtain ⟨hres, hev, hlog⟩ := processBody_excess fs job template_cfg output_dir font_scale
    remove_bg_jpg photo_scale hk hn
  refine ⟨?_, ?_, ?_, ?_⟩
  · rw [process_job_fst, process_job_fst, hres]
  · rw [process_job_events_eq, process_job_events_eq, hev]
  · rw [process_job_saved_eq, process_job_saved_eq, hres]
  · intro rgb hok
    obtain ⟨hw, hp⟩ := hlog rgb hok
    exact ⟨by rw [process_job_logs_eq]; exact hw,
      by rw [process_job_events_eq]; exact hp⟩

/-- Template used by the C9 witness: one photo box. -/
def cfgC9 : TemplateCfg :=
  { photo_boxes := [{ x := 0, y := 0, width := 10, height := 10 }] }

/-- Job used by the C9 witness: two photos against one box. -/
def jobC9 : Job :=
  { photos := .list ["a.png", "b.png"] }

/-- Witness for C9 (amended): two photos against one box. -/
theorem process_job_excess_photos_witness :
    (process_job ⟨fun _ => true⟩ jobC9 cfgC9 "output" true true 1 false (13/10)).1 =
      (process_job ⟨fun _ => true⟩ { jobC9 with photos := .list ((resolvePhotos
          jobC9.photos).take cfgC9.photo_boxes.length) } cfgC9 "output" true true 1 false
          (13/10)).1 ∧
    (process_job ⟨fun _ => true⟩ jobC9 cfgC9 "output" true true 1 false (13/10)).2.events =
      (process_job ⟨fun _ => true⟩ { jobC9 with photos := .list ((resolvePhotos
          jobC9.photos).take cfgC9.photo_boxes.length) } cfgC9 "output" true true 1 false
          (13/10)).2.events ∧
    (process_job ⟨fun _ => true⟩ jobC9 cfgC9 "output" true true 1 false (13/10)).2.saved =
      (process_job ⟨fun _ => true⟩ { jobC9 with photos := .list ((resolvePhotos
          jobC9.photos).take cfgC9.photo_boxes.length) } cfgC9 "output" true true 1 false
          (13/10)).2.saved ∧
    excessWarningMsg (resolvePhotos jobC9.photos).length cfgC9.photo_boxes.length ∈
      (process_job ⟨fun _ => true⟩ jobC9 cfgC9 "output" true true 1 false (13/10)).2.logs ∧
    photoEventsOf (process_job ⟨fun _ => true⟩ jobC9 cfgC9 "output" true true 1 false
        (13/10)).2.events =
      (photoLoop ⟨fun _ => true⟩ (List.zip ((resolvePhotos jobC9.photos).take
          (parse_photo_boxes cfgC9.photo_boxes).length) (parse_photo_boxes cfgC9.photo_boxes))
        0 false (13/10)).1 := by
  have h := process_job_excess_photos ⟨fun _ => true⟩ jobC9 cfgC9 "output" true true 1 false
    (13/10) (by decide) (by decide)
  exact ⟨h.1, h.2.1, h.2.2.1, (h.2.2.2 (245, 246, 250) (by decide)).1,
    (h.2.2.2 (245, 246, 250) (by decide)).2⟩

end GoodieBot
